import Mathlib

/-!
# Verification of the duckgeogpt natural-language-to-spatial-query pipeline

A shallow embedding, in Lean 4, of the core logic of the duckgeogpt
repository: the DuckDB engine wrapper (`src/services/duckdbService.ts`),
the Gemini intent extraction (`src/services/openaiService.ts`), the chat
resolver and WKT-to-GeoJSON conversion (`src/components/ChatBox.tsx` and
the regex-fallback ChatBox variant), the map layer state
(`src/components/Map.tsx`) and the export formatter
(`src/components/ExportPanel.tsx`).

JavaScript strings are modelled as `List Char`, JavaScript numbers as
`ℚ` with `Option ℚ` where `NaN` can arise (`none` = NaN), thrown
exceptions as `Except`, and the module-level mutable state of the
DuckDB service as an explicit state machine stepped at the JavaScript
task interleaving points.
-/

namespace DuckGeoGpt

/-! ## duckdbService: engine initialization state machine

`duckdbService.ts` keeps two module-level variables,
`let db: AsyncDuckDB | null` and
`let initializationPromise: Promise<AsyncDuckDB> | null`.
`initializeDuckDB` (lines 6-72) returns `db` if it is set, returns the
in-flight `initializationPromise` if one exists, and otherwise starts
the one-time setup (spatial extension install + `loadParquetFiles`
dataset registration) inside an async IIFE whose promise is stored in
`initializationPromise` before any other task can run (JavaScript
run-to-completion: the assignment happens at the IIFE's first await).
Crucially, the IIFE assigns `db = new AsyncDuckDB(...)` at line 36,
after the `selectBundle`/`createWorker` awaits but before
`instantiate`, the spatial-extension install and the dataset
registration have run: from that await boundary until setup completes,
`db` holds a not-yet-initialized instance, which the line-7 guard
hands out synchronously to any overlapping call.

The state machine below records `db` (`Option Engine`), whether an
initialization promise exists (`inflight`), whether the in-flight
setup has finished its registration sequence (`setupDone`), and how
many times the setup sequence has been started (`starts`,
instrumentation used to state the "registration runs exactly once"
property).  The setup task's await boundaries at which other calls can
interleave are explicit steps: `assignDb` is the line-36 assignment,
`resolveInit` is the IIFE returning `db` (line 62: the promise settles
with that engine for every awaiter; on success the source never resets
`initializationPromise`), and `failInit` is the catch branch
(lines 63-68), which resets `db` and `initializationPromise` to `null`
and rethrows. -/

/-- An engine handle (`AsyncDuckDB` instance), abstracted to an id. -/
abbrev Engine := Nat

/-- What a single call to `initializeDuckDB` does, observationally: it
either returns the current `db` synchronously (initialized or not),
joins the in-flight `initializationPromise`, or starts a fresh
setup. -/
inductive InitCallResult where
  | cachedDb (e : Engine)
  | joinedInflight
  | startedSetup
  deriving DecidableEq, Repr

/-- Module-level state of `duckdbService.ts`, between interleaving
points of the setup task. -/
structure InitState where
  db : Option Engine
  inflight : Bool
  setupDone : Bool
  starts : Nat
  deriving DecidableEq, Repr

/-- The state before the module is first used: `db = null`,
`initializationPromise = null`. -/
def InitState.initial : InitState :=
  { db := none, inflight := false, setupDone := false, starts := 0 }

/-- The synchronous prefix of `initializeDuckDB` (lines 6-16 and the
storing of the IIFE's promise): guard on `db` - returning whatever
instance `db` currently holds, whether or not its setup has finished -
then guard on `initializationPromise`, else mark a fresh setup as
started and in flight. -/
def initializeDuckDB : InitState → InitCallResult × InitState
  | s =>
    match s.db with
    | some e => (.cachedDb e, s)
    | none =>
      if s.inflight then (.joinedInflight, s)
      else (.startedSetup,
        { s with inflight := true, setupDone := false, starts := s.starts + 1 })

/-- Line 36, `db = new AsyncDuckDB(...)`: the in-flight setup task
assigns the raw instance to the module variable before `instantiate`,
the extension install and the dataset registration have run. -/
def assignDb (e : Engine) (s : InitState) : InitState :=
  if s.inflight then { s with db := some e } else s

/-- The in-flight setup completes (line 62 `return db`): the
registration sequence is done and the promise settles, handing the
current `db` (the first component) to every caller that returned
`joinedInflight` or `startedSetup`.  On success the source leaves
`initializationPromise` set. -/
def resolveInit (s : InitState) : Option Engine × InitState :=
  (s.db, if s.inflight then { s with setupDone := true } else s)

/-- The in-flight setup fails (lines 63-68): `db = null`,
`initializationPromise = null`, error rethrown to the awaiters. -/
def failInit (s : InitState) : InitState :=
  { s with db := none, inflight := false, setupDone := false }

/-! ## Row values

A value inside a row object returned by the DuckDB connection, before
`serializeResult` normalizes it (`duckdbService.ts` lines 146-165).
JavaScript numbers are `Option ℚ` with `none` playing NaN. -/
inductive RawVal where
  | bigInt (i : Int)
  | num (q : Option ℚ)
  | str (s : String)
  | boolV (b : Bool)
  | nullV
  | undef
  | nested (fields : List (String × RawVal))

/-- A normalized row value, as produced by `serializeResult`: no
`bigint`, no `undefined`. These are the values that reach
`convertToGeoJSON`, the layer state and the exporter. -/
inductive RVal where
  | num (q : Option ℚ)
  | str (s : String)
  | boolV (b : Bool)
  | nullV
  | nested (fields : List (String × RVal))

/-- Deep normalization of a nested value: models
`JSON.parse(JSON.stringify(value, (_, v) => typeof v === 'bigint' ? Number(v) : v))`
(lines 156-158). `JSON.stringify` drops `undefined`-valued fields and
renders `NaN` as `null`. -/
def cleanVal : RawVal → RVal
  | .bigInt i => .num (some (i : ℚ))
  | .num none => .nullV
  | .num (some q) => .num (some q)
  | .str s => .str s
  | .boolV b => .boolV b
  | .nullV => .nullV
  | .undef => .nullV
  | .nested fs => .nested (cleanFields fs)
where
  cleanFields : List (String × RawVal) → List (String × RVal)
    | [] => []
    | (_, .undef) :: t => cleanFields t
    | (k, v) :: t => (k, cleanVal v) :: cleanFields t

/-- A row object. -/
abbrev RawRow := List (String × RawVal)

/-- A normalized row object. -/
abbrev Row := List (String × RVal)

/-- Top-level per-row normalization (`serializeResult`, lines 146-165):
`bigint` becomes a number, `null`/`undefined` become `null`, nested
objects are deep-normalized, everything else is kept as is (note: a
top-level `NaN` is kept, unlike inside nested objects). -/
def serializeRowEntry : RawVal → RVal
  | .bigInt i => .num (some (i : ℚ))
  | .nullV => .nullV
  | .undef => .nullV
  | .nested fs => cleanVal (.nested fs)
  | .num q => .num q
  | .str s => .str s
  | .boolV b => .boolV b

/-- `serializeResult` (lines 146-165): maps `serializeRowEntry` over
every field of every row. -/
def serializeResult (data : List RawRow) : List Row :=
  data.map fun row => row.map fun (k, v) => (k, serializeRowEntry v)

/-- The spec's name for an engine-level fault surfaced by
`queryDuckDB`; the implementation rethrows the connection's error
object, so the payload is the underlying engine message. -/
abbrev QueryExecutionError := String

/-- `queryDuckDB` (lines 167-202): runs the SQL on the engine
connection, serializes the rows, and rethrows any engine error to the
caller.  The engine connection is the external query-executor
collaborator; it is modelled as a function from the attempt number to
that attempt's outcome, so that "no automatic retry" is expressible:
`queryDuckDB` only ever consults attempt `0`. -/
def queryDuckDB (engine : Nat → Except QueryExecutionError (List RawRow))
    (_sql : String) : Except QueryExecutionError (List Row) :=
  match engine 0 with
  | .error e => .error e
  | .ok rawData => .ok (serializeResult rawData)

/-! ## Geometry, Feature, FeatureCollection

The GeoJSON-shaped objects built by `convertToGeoJSON`
(`ChatBox.tsx`) and consumed by `Map.tsx` and `ExportPanel.tsx`.
Coordinates hold row values (`RVal`): the WKT path always produces
numbers (possibly NaN), but the lon/lat fallback path copies whatever
truthy value the row holds. -/
inductive Geometry where
  | point (coordinates : List RVal)
  | multiPoint (coordinates : List (List RVal))
  | lineString (coordinates : List (List RVal))
  | polygon (coordinates : List (List (List RVal)))
  | multiLineString (coordinates : List (List (List RVal)))
  | multiPolygon (coordinates : List (List (List (List RVal))))

/-- The `type` tag of a geometry object. -/
def Geometry.typeName : Geometry → String
  | .point _ => "Point"
  | .multiPoint _ => "MultiPoint"
  | .lineString _ => "LineString"
  | .polygon _ => "Polygon"
  | .multiLineString _ => "MultiLineString"
  | .multiPolygon _ => "MultiPolygon"

structure Feature where
  id : Nat
  geometry : Option Geometry
  properties : List (String × RVal)

structure FeatureCollection where
  features : List Feature

/-! ## Map.tsx: layer/session state -/

/-- One executed query tracked by `Map.tsx` (interface `QueryResult`,
lines 23-29). -/
structure QueryResult where
  id : String
  name : String
  data : FeatureCollection
  timestamp : Nat
  visible : Bool

/-- The deck.gl viewport (`ViewState`); `padding` is always the zero
record in this code and is omitted. -/
structure ViewState where
  longitude : Option ℚ
  latitude : Option ℚ
  zoom : Option ℚ
  pitch : Option ℚ
  bearing : Option ℚ
  deriving DecidableEq, Repr

/-- `INITIAL_VIEW_STATE` (lines 12-21): Tartu center. -/
def INITIAL_VIEW_STATE : ViewState :=
  { longitude := some (26.7251 : ℚ), latitude := some (58.3776 : ℚ)
    zoom := some 13, pitch := some 0, bearing := some 0 }

/-- The session state owned by `MapComponent`. -/
structure MapState where
  queryHistory : List QueryResult
  viewState : ViewState
  queryResults : Option FeatureCollection
  currentQueryName : String

/-- JavaScript numeric coercion `Number(v)` as applied by `Math.min` /
`Math.max` to coordinate entries; `none` is NaN. -/
def RVal.toNumber : RVal → Option ℚ
  | .num q => q
  | .str _ => none
  | .boolV b => some (if b then 1 else 0)
  | .nullV => some 0
  | .nested _ => none

/-- `c[0]` on a coordinate pair followed by numeric coercion:
indexing past the end gives `undefined`, which `Math.min` turns into
NaN. -/
def coordAt (i : Nat) (c : List RVal) : Option ℚ :=
  match c.get? i with
  | some v => v.toNumber
  | none => none

/-- `Math.min` over two values (NaN-propagating). -/
def jsMin (a b : Option ℚ) : Option ℚ :=
  match a, b with
  | some x, some y => some (min x y)
  | _, _ => none

/-- `Math.max` over two values (NaN-propagating). -/
def jsMax (a b : Option ℚ) : Option ℚ :=
  match a, b with
  | some x, some y => some (max x y)
  | _, _ => none

/-- `Math.min(...xs)` for the nonempty spreads in
`fitViewportToFeatures`. -/
def jsMinList : List (Option ℚ) → Option ℚ
  | [] => none
  | x :: xs => xs.foldl jsMin x

/-- `Math.max(...xs)`. -/
def jsMaxList : List (Option ℚ) → Option ℚ
  | [] => none
  | x :: xs => xs.foldl jsMax x

/-- The bounding box handed to the external map renderer's
`fitBounds`: `[[minLon, minLat], [maxLon, maxLat]]`. -/
structure Bounds where
  minLon : Option ℚ
  minLat : Option ℚ
  maxLon : Option ℚ
  maxLat : Option ℚ
  deriving DecidableEq, Repr

/-- The coordinate-flattening `switch` of `fitViewportToFeatures`
(lines 54-67): nesting depth per geometry type, null geometry and
unknown types contribute nothing. -/
def featureCoords (f : Feature) : List (List RVal) :=
  match f.geometry with
  | none => []
  | some g =>
    match g with
    | .point c => [c]
    | .multiPoint c => c
    | .lineString c => c
    | .polygon c => c.flatten
    | .multiLineString c => c.flatten
    | .multiPolygon c => (c.map List.flatten).flatten

/-- `fitViewportToFeatures` (lines 49-101). `fitBounds` is the
external `WebMercatorViewport` collaborator, passed in as a function
from the bounding box to the fitted `(longitude, latitude, zoom)`.
The viewport is left unchanged when the feature list is empty or no
coordinates could be flattened out of it. -/
def fitViewportToFeatures (fitBounds : Bounds → Option ℚ × Option ℚ × Option ℚ)
    (features : List Feature) (vs : ViewState) : ViewState :=
  if features.isEmpty then vs
  else
    let coords := features.flatMap featureCoords
    if coords.isEmpty then vs
    else
      let lons := coords.map (coordAt 0)
      let lats := coords.map (coordAt 1)
      let b : Bounds :=
        { minLon := jsMinList lons, minLat := jsMinList lats
          maxLon := jsMaxList lons, maxLat := jsMaxList lats }
      let (lo, la, z) := fitBounds b
      { longitude := lo, latitude := la, zoom := z
        pitch := some 0, bearing := some 0 }

/-- `handleQueryGenerated` (lines 104-139), after `JSON.parse` of the
GeoJSON string produced by the ChatBox: a non-empty feature list is
stored, appended to `queryHistory` as a new visible layer (id and
timestamp from `Date.now()`, here the parameter `now`), and the
viewport is fitted; an empty feature list changes nothing. -/
def handleQueryGenerated (fitBounds : Bounds → Option ℚ × Option ℚ × Option ℚ)
    (now : Nat) (label : Option String) (st : MapState) (geoJSON : FeatureCollection) :
    MapState :=
  if geoJSON.features.length > 0 then
    let queryName := label.getD ("Query " ++ toString (st.queryHistory.length + 1))
    let newQuery : QueryResult :=
      { id := toString now, name := queryName, data := geoJSON
        timestamp := now, visible := true }
    { st with
      queryResults := some geoJSON
      queryHistory := st.queryHistory ++ [newQuery]
      currentQueryName := queryName
      viewState := fitViewportToFeatures fitBounds geoJSON.features st.viewState }
  else st

/-- `toggleLayerVisibility` (lines 182-190). -/
def toggleLayerVisibility (queryId : String) (hist : List QueryResult) :
    List QueryResult :=
  hist.map fun query =>
    if query.id = queryId then { query with visible := !query.visible } else query

/-- `removeLayer` (lines 193-195). -/
def removeLayer (queryId : String) (hist : List QueryResult) : List QueryResult :=
  hist.filter fun query => query.id ≠ queryId

/-- A renderable layer handed to the external deck.gl renderer
(`GeoJsonLayer` constructor call, lines 223-236). -/
structure RenderLayer where
  id : String
  data : FeatureCollection
  fillColor : List ℚ
  lineColor : List ℚ

/-- The fixed 7-entry palette (lines 210-218), RGBA. -/
def layerColors : List (List ℚ) :=
  [[255, 165, 0, 180], [0, 255, 0, 180], [255, 0, 255, 180],
   [0, 255, 255, 180], [255, 255, 0, 180], [255, 0, 0, 180],
   [0, 0, 255, 180]]

/-- `const color = colors[index % colors.length]` together with
`lineColor = [color[0]*0.7, color[1]*0.7, color[2]*0.7]`
(lines 220-221), and the `GeoJsonLayer` id `query-${query.id}`. -/
def mkRenderLayer (index : Nat) (query : QueryResult) : RenderLayer :=
  let color := (layerColors.get? (index % layerColors.length)).getD []
  { id := "query-" ++ query.id
    data := query.data
    fillColor := color
    lineColor := (color.take 3).map (fun c => c * (7/10 : ℚ)) }

/-- The `queryHistory.forEach((query, index) => ...)` loop of the
`layers` useMemo (lines 204-242): the index runs over the FULL
history, hidden layers contribute no render layer but still occupy
their index. -/
def renderLayersAux (index : Nat) : List QueryResult → List RenderLayer
  | [] => []
  | q :: t =>
    (if q.visible then [mkRenderLayer index q] else []) ++ renderLayersAux (index + 1) t

/-- The derived render-layer list (`layers` useMemo). -/
def renderLayers (hist : List QueryResult) : List RenderLayer :=
  renderLayersAux 0 hist

/-- The render layer produced for the query with the given id, if
any (deck.gl identifies layers by their id string). -/
def findRenderLayer (hist : List QueryResult) (queryId : String) : Option RenderLayer :=
  (renderLayers hist).find? fun rl => rl.id = "query-" ++ queryId


/-! ## JavaScript string primitives

`List Char` stands for a JavaScript string.  The functions below model
the exact string operations the source uses: `\s` of JavaScript
regexes, case-insensitive comparison under the `i` flag, `trim()`,
single-character `split()`, and the `Number()` coercion. -/

/-- JavaScript regex `\s` / `String.prototype.trim` whitespace
(ASCII part plus NBSP; the source only ever meets ASCII whitespace). -/
def isWsJs (c : Char) : Bool :=
  c = ' ' || c = '\t' || c = '\n' || c = '\r' || c = '\x0b' || c = '\x0c' ||
    c = Char.ofNat 160

/-- Case-insensitive character comparison (regex `i` flag, ASCII). -/
def ciEq (c d : Char) : Bool := c.toLower = d.toLower

/-- `String.prototype.trim()`. -/
def trimJs (l : List Char) : List Char :=
  ((l.dropWhile isWsJs).reverse.dropWhile isWsJs).reverse

/-- `String.prototype.split(ch)` for a single-character separator:
splits at every occurrence, keeping empty pieces. -/
def splitChar (ch : Char) : List Char → List (List Char)
  | [] => [[]]
  | c :: r =>
    if c = ch then [] :: splitChar ch r
    else
      match splitChar ch r with
      | [] => [[c]]
      | h :: t => (c :: h) :: t

/-- `Array.prototype.join` inverse image used only to STATE theorems
about canonical renders: interleaves `ch` between the parts. -/
def joinChar (ch : Char) : List (List Char) → List Char
  | [] => []
  | [x] => x
  | x :: xs => x ++ ch :: joinChar ch xs

/-- Digit run to a natural number. -/
def digitsToNat (ds : List Char) : Nat :=
  ds.foldl (fun a c => a * 10 + (c.toNat - 48)) 0

/-- The exponent suffix and final value of a JavaScript decimal
numeric literal: `intPart [. fracPart] [(e|E) [sign] digits]`. -/
def numLitTail (sgn : ℚ) (ip fp : List Char) (l : List Char) : Option ℚ :=
  let base : ℚ := sgn * ((digitsToNat ip : ℚ) + (digitsToNat fp : ℚ) / (10 : ℚ) ^ fp.length)
  match l with
  | [] => some base
  | e :: t =>
    if e = 'e' || e = 'E' then
      let es : Int × List Char :=
        match t with
        | '+' :: u => (1, u)
        | '-' :: u => (-1, u)
        | u => (1, u)
      let eds := es.2.takeWhile Char.isDigit
      if eds.isEmpty || !(es.2.drop eds.length).isEmpty then none
      else some (base * (10 : ℚ) ^ (es.1 * (digitsToNat eds : Int)))
    else none

/-- A JavaScript decimal numeric literal, `none` when the text is not
one.  This is the decimal subset of the `Number()` grammar (the
sources only ever meet decimal WKT coordinates; hex/binary/octal and
`Infinity` forms are outside every code path modelled here). -/
def parseNumLit (l : List Char) : Option ℚ :=
  let sl : ℚ × List Char :=
    match l with
    | '+' :: t => (1, t)
    | '-' :: t => (-1, t)
    | t => (1, t)
  let ip := sl.2.takeWhile Char.isDigit
  let l2 := sl.2.drop ip.length
  match l2 with
  | '.' :: t =>
    let fp := t.takeWhile Char.isDigit
    if ip.isEmpty && fp.isEmpty then none
    else numLitTail sl.1 ip fp (t.drop fp.length)
  | _ =>
    if ip.isEmpty then none
    else numLitTail sl.1 ip [] l2

/-- `Number(s)` as used by `.map(Number)` in `convertToGeoJSON`:
whitespace is trimmed, the empty string is `0`, anything that is not
a numeric literal is NaN (`none`). -/
def jsNumber (l : List Char) : Option ℚ :=
  let t := trimJs l
  if t.isEmpty then some 0 else parseNumLit t

/-! ## The WKT-parsing step of `convertToGeoJSON`

`ChatBox.tsx` lines 158-209 (identical in the regex-fallback ChatBox
variant, lines 230-281).  Each shape is matched with an unanchored,
case-insensitive regex of the form `KW\s*\(..\(([^)]+)\)..\)`; the
regex search is modelled by `scanMatch`, which attempts the pattern at
every start position from the left, exactly like an unanchored
JavaScript regex.  None of these patterns needs backtracking: `\s*`
is followed by `(` which is not whitespace, and `([^)]+)` is followed
by `)` which the capture class excludes, so maximal munch is the only
viable strategy. -/

/-- Strip a case-insensitive literal keyword, returning the rest. -/
def stripKwCI : List Char → List Char → Option (List Char)
  | [], s => some s
  | _ :: _, [] => none
  | p :: ps, c :: cs => if ciEq c p then stripKwCI ps cs else none

/-- Strip exactly `n` copies of a character. -/
def stripRun (ch : Char) : Nat → List Char → Option (List Char)
  | 0, s => some s
  | _ + 1, [] => none
  | n + 1, c :: cs => if c = ch then stripRun ch n cs else none

/-- Attempt `KW\s*\(^nOpen ([^)]+) \)^nClose` at the current position;
returns the capture group. -/
def tryKwParen (kw : List Char) (nOpen nClose : Nat) (s : List Char) :
    Option (List Char) :=
  (stripKwCI kw s).bind fun r1 =>
    (stripRun '(' nOpen (r1.dropWhile isWsJs)).bind fun r3 =>
      if (r3.takeWhile fun c => c ≠ ')').isEmpty then none
      else
        (stripRun ')' nClose (r3.drop (r3.takeWhile fun c => c ≠ ')').length)).map
          fun _ => r3.takeWhile fun c => c ≠ ')'

/-- Unanchored regex search: try the pattern at every position, left
to right. -/
def scanMatch {α : Type} (attempt : List Char → Option α) : List Char → Option α
  | [] => attempt []
  | c :: rest =>
    match attempt (c :: rest) with
    | some r => some r
    | none => scanMatch attempt rest

def kwPOINT : List Char := ['P', 'O', 'I', 'N', 'T']
def kwLINESTRING : List Char := ['L', 'I', 'N', 'E', 'S', 'T', 'R', 'I', 'N', 'G']
def kwPOLYGON : List Char := ['P', 'O', 'L', 'Y', 'G', 'O', 'N']
def kwMULTIPOLYGON : List Char :=
  ['M', 'U', 'L', 'T', 'I', 'P', 'O', 'L', 'Y', 'G', 'O', 'N']

/-- `c.trim().split(' ').map(Number)` applied to one comma-separated
piece of a LINESTRING / POLYGON / MULTIPOLYGON capture. -/
def parseCoordPair (s : List Char) : List RVal :=
  (splitChar ' ' (trimJs s)).map fun t => RVal.num (jsNumber t)

/-- The WKT-parsing step of `convertToGeoJSON` (lines 163-209): the
four shape regexes are tried in the order POINT, LINESTRING, POLYGON,
MULTIPOLYGON; both of the last two produce a `Polygon` with a single
ring.  Note the POLYGON pattern `POLYGON\s*\(\(([^)]+)\)\)` also
matches inside a `MULTIPOLYGON(((..)))` string (at offset 5, with the
third `(` falling into the capture), and it is tried first. -/
def parseWKTL (s : List Char) : Option Geometry :=
  match scanMatch (tryKwParen kwPOINT 1 1) s with
  | some cap =>
    some (.point ((splitChar ' ' cap).map fun t => RVal.num (jsNumber t)))
  | none =>
    match scanMatch (tryKwParen kwLINESTRING 1 1) s with
    | some cap => some (.lineString ((splitChar ',' cap).map parseCoordPair))
    | none =>
      match scanMatch (tryKwParen kwPOLYGON 2 2) s with
      | some cap => some (.polygon [(splitChar ',' cap).map parseCoordPair])
      | none =>
        match scanMatch (tryKwParen kwMULTIPOLYGON 3 3) s with
        | some cap => some (.polygon [(splitChar ',' cap).map parseCoordPair])
        | none => none

/-- String-level entry point. -/
def parseWKT (w : String) : Option Geometry := parseWKTL w.data

/-! ## `convertToGeoJSON` row handling (lines 149-250) -/

/-- JavaScript property access `row.k` on a row object. With duplicate
keys the last occurrence wins, as in a JavaScript object literal. -/
def rowGet (row : Row) (k : String) : Option RVal :=
  (row.reverse.find? fun kv => kv.1 = k).map fun kv => kv.2

/-- JavaScript truthiness of `row.k` (`undefined`, `null`, `false`,
`0`, `NaN` and `""` are falsy). -/
def truthyV : Option RVal → Bool
  | none => false
  | some (.num none) => false
  | some (.num (some q)) => !(q = 0)
  | some (.str s) => !(s = "")
  | some (.boolV b) => b
  | some .nullV => false
  | some (.nested _) => true

/-- The geometry-ish keys stripped from `properties` (line 238). -/
def geoKeys : List String :=
  ["geometry", "geometry_wkt", "geom", "shape", "wkt", "coordinates",
   "lon", "lat", "longitude", "latitude", "x", "y"]

/-- Stage 1 of the per-row geometry computation (lines 156-209): if
`row.geometry_wkt` is truthy, run the WKT patterns on it.  Calling
`.match` on a truthy non-string raises a TypeError, modelled as
`.error` (it would propagate out of `convertToGeoJSON` into
`handleQuery`'s catch). -/
def rowWktGeometry (row : Row) : Except String (Option Geometry) :=
  if truthyV (rowGet row "geometry_wkt") then
    match rowGet row "geometry_wkt" with
    | some (.str w) => .ok (parseWKT w)
    | _ => .error "TypeError: row.geometry_wkt.match is not a function"
  else .ok none

/-- Stage 2 (lines 212-230): if stage 1 produced nothing (`null` is
falsy, any geometry object is truthy), fall back to `lon`/`lat`, then
`longitude`/`latitude`, then the `[0, 0]` origin point. -/
def rowGeometry (row : Row) : Except String (Option Geometry) :=
  match rowWktGeometry row with
  | .error e => .error e
  | .ok (some g) => .ok (some g)
  | .ok none =>
    if truthyV (rowGet row "lon") && truthyV (rowGet row "lat") then
      .ok (some (.point [(rowGet row "lon").getD .nullV, (rowGet row "lat").getD .nullV]))
    else if truthyV (rowGet row "longitude") && truthyV (rowGet row "latitude") then
      .ok (some (.point [(rowGet row "longitude").getD .nullV,
        (rowGet row "latitude").getD .nullV]))
    else
      .ok (some (.point [.num (some 0), .num (some 0)]))

/-- One feature per row (lines 232-241): sequential id, geometry from
the two stages, properties = all entries except the geometry-ish keys.
-/
def rowToFeature (index : Nat) (row : Row) : Except String Feature :=
  match rowGeometry row with
  | .error e => .error e
  | .ok g =>
    .ok { id := index
          geometry := g
          properties := row.filter fun kv => !(geoKeys.contains kv.1) }

/-- The indexed `data.map((row, index) => ...)` loop; a thrown
TypeError aborts the whole conversion. -/
def convertRows (index : Nat) : List Row → Except String (List Feature)
  | [] => .ok []
  | r :: t =>
    match rowToFeature index r with
    | .error e => .error e
    | .ok f =>
      match convertRows (index + 1) t with
      | .error e => .error e
      | .ok rest => .ok (f :: rest)

/-- `convertToGeoJSON` (lines 149-250). -/
def convertToGeoJSON (data : List Row) : Except String FeatureCollection :=
  match convertRows 0 data with
  | .error e => .error e
  | .ok fs => .ok { features := fs }

/-- The wkt field either is absent/falsy or is a string; under this
condition no `.match`-on-non-string TypeError can occur.  (Rows from
the SQL contract always satisfy it: `ST_AsText` yields a string or
NULL.) -/
def wktFieldOk (row : Row) : Bool :=
  !(truthyV (rowGet row "geometry_wkt")) ||
    (match rowGet row "geometry_wkt" with
     | some (.str _) => true
     | _ => false)

/-- The WKT geometry stage as a total function under `wktFieldOk`. -/
def parsedWkt (row : Row) : Option Geometry :=
  match rowGet row "geometry_wkt" with
  | some (.str w) => if w = "" then none else parseWKT w
  | _ => none

/-- Modelled on the spec's words (§4.1, "Geometry Codec"): the
fallback point the spec prescribes when no parseable WKT is present -
`lon`/`lat`, else `longitude`/`latitude`, else the `[0, 0]` origin.
Used to compare the code's fallback branch against the spec text. -/
def specFallbackPoint (row : Row) : Geometry :=
  if truthyV (rowGet row "lon") && truthyV (rowGet row "lat") then
    .point [(rowGet row "lon").getD .nullV, (rowGet row "lat").getD .nullV]
  else if truthyV (rowGet row "longitude") && truthyV (rowGet row "latitude") then
    .point [(rowGet row "longitude").getD .nullV, (rowGet row "latitude").getD .nullV]
  else
    .point [.num (some 0), .num (some 0)]



/-! ## The regex-fallback ChatBox resolver (`src/unnamed/part_001`, `handleQuery`)

`handleQuery` (lines 72-211) resolves free text with regexes: a
center-map directive, an "available data types" explanation, then
location/radius extraction and dataset classification.  The JavaScript
regexes are modelled by explicit backtracking searches: each regex
component contributes an ordered list of candidate "rests" (greedy
components longest-first, lazy ones shortest-first, alternations in
source order), composed with `List.flatMap` (depth-first = JavaScript
backtracking order), and `scanMatch` supplies the unanchored
left-to-right position scan. -/

/-- JavaScript `\w`. -/
def isWordChar (c : Char) : Bool := c.isAlpha || c.isDigit || c = '_'

/-- The capture class `[\w\s,]` of the center-directive regex. -/
def centerClassChar (c : Char) : Bool := isWordChar c || isWsJs c || c = ','

/-- The capture class `[a-zA-ZäöüõÄÖÜÕ\-\s]` of the location
patterns. -/
def locClassChar (c : Char) : Bool :=
  (c.isAlpha || c ∈ ['ä', 'ö', 'ü', 'õ', 'Ä', 'Ö', 'Ü', 'Õ', '-']) || isWsJs c

/-- Candidate rests of `\s+`, longest consumed first (greedy). -/
def wsPlusCands (s : List Char) : List (List Char) :=
  (List.range (s.takeWhile isWsJs).length).map fun i =>
    s.drop ((s.takeWhile isWsJs).length - i)

/-- Candidate rests of `\s*`, longest consumed first (greedy). -/
def wsStarCands (s : List Char) : List (List Char) :=
  (List.range ((s.takeWhile isWsJs).length + 1)).map fun i =>
    s.drop ((s.takeWhile isWsJs).length - i)

/-- Candidate rest of a case-insensitive literal. -/
def litCands (kw : List Char) (s : List Char) : List (List Char) :=
  match stripKwCI kw s with
  | some r => [r]
  | none => []

/-- One attempt of
`(?:center|go to|move|fly)\s+(?:map\s+)?(?:on|to)?\s*([\w\s,]+)` at
the current position (ChatBox variants, line 77 / line 78 of
`ChatBox.tsx`); returns `match[1]`. -/
def centerMatchAt (s : List Char) : Option (List Char) :=
  ((["center".data, "go to".data, "move".data, "fly".data].flatMap
      fun kw => litCands kw s).flatMap fun r1 =>
    (wsPlusCands r1).flatMap fun r2 =>
      (((litCands "map".data r2).flatMap fun rm => wsPlusCands rm) ++ [r2]).flatMap
        fun r3 =>
          (litCands "on".data r3 ++ litCands "to".data r3 ++ [r3]).flatMap fun r4 =>
            (wsStarCands r4).filterMap fun r5 =>
              if (r5.takeWhile centerClassChar).isEmpty then none
              else some (r5.takeWhile centerClassChar)).head?

/-- The unanchored center-directive match. -/
def centerMatch (s : List Char) : Option (List Char) := scanMatch centerMatchAt s

/-- The terminator `(?:\s|$|,|\.)` of location pattern 1. -/
def locTermOk (s : List Char) : Bool :=
  match s with
  | [] => true
  | c :: _ => isWsJs c || c = ',' || c = '.'

/-- One attempt of location pattern 1,
`(?:in|around|near|at|within|close to)\s+([a-zA-ZäöüõÄÖÜÕ\-\s]+?)(?:\s|$|,|\.)`
(line 102): the capture is lazy, so the shortest non-empty capture
followed by a terminator wins. -/
def locPat1At (s : List Char) : Option (List Char) :=
  ((["in".data, "around".data, "near".data, "at".data, "within".data,
      "close to".data].flatMap fun kw => litCands kw s).flatMap fun r1 =>
    (wsPlusCands r1).flatMap fun r2 =>
      (List.range (r2.takeWhile locClassChar).length).filterMap fun i =>
        if locTermOk (r2.drop (i + 1)) then some (r2.take (i + 1)) else none).head?

/-- The noun alternation `(?:buildings?|roads?|areas?|zones?|parks?|schools?)`
of location pattern 2: the optional `s` and anything after it are
irrelevant to whether the pattern matches. -/
def locNounOk (s : List Char) : Bool :=
  ["building".data, "road".data, "area".data, "zone".data, "park".data,
    "school".data].any fun kw => (stripKwCI kw s).isSome

/-- One attempt of location pattern 2,
`([a-zA-ZäöüõÄÖÜÕ\-\s]+?)\s+(?:buildings?|roads?|areas?|zones?|parks?|schools?)`
(line 103): lazy capture, then `\s+`, then a dataset noun. -/
def locPat2At (s : List Char) : Option (List Char) :=
  ((List.range (s.takeWhile locClassChar).length).filterMap fun i =>
    if (wsPlusCands (s.drop (i + 1))).any locNounOk then some (s.take (i + 1))
    else none).head?

/-- The location extraction loop (lines 106-112): pattern 1 first,
then pattern 2; `match[1].trim().toLowerCase()`. -/
def extractLocation (s : List Char) : String :=
  match scanMatch locPat1At s with
  | some cap => String.mk ((trimJs cap).map Char.toLower)
  | none =>
    match scanMatch locPat2At s with
    | some cap => String.mk ((trimJs cap).map Char.toLower)
    | none => ""

/-- One attempt of `(\d+)\s*(?:km|kilometer|kilometers)` (line 115);
returns the digit capture. -/
def radiusMatchAt (s : List Char) : Option (List Char) :=
  if (s.takeWhile Char.isDigit).isEmpty then none
  else if (wsStarCands (s.drop (s.takeWhile Char.isDigit).length)).any (fun r =>
      (stripKwCI "km".data r).isSome || (stripKwCI "kilometer".data r).isSome ||
        (stripKwCI "kilometers".data r).isSome) then
    some (s.takeWhile Char.isDigit)
  else none

/-- `radius = 10` default, else `parseInt(radiusMatch[1])`
(lines 114-118). -/
def extractRadius (s : List Char) : Nat :=
  match scanMatch radiusMatchAt s with
  | some ds => digitsToNat ds
  | none => 10

/-- Substring search: does the needle occur anywhere in the hay? -/
def containsSubList : List Char → List Char → Bool
  | [], needle => needle.isEmpty
  | c :: t, needle => needle.isPrefixOf (c :: t) || containsSubList t needle

/-- `String.prototype.includes` on the lowercased input. -/
def includesStr (hay : List Char) (needle : String) : Bool :=
  containsSubList hay needle.data

/-- A canned catalog entry of `getSampleQueries`
(`duckdbService.ts` lines 223-291). -/
structure SampleQuery where
  keyword : String
  query : String
  description : String
  deriving DecidableEq, Repr

/-- `getSampleQueries` (lines 223-291). -/
def getSampleQueries : List SampleQuery :=
  [{ keyword := "buildings"
     query := "SELECT *, ST_AsText(geometry) as geometry_wkt FROM read_parquet('buildings.geoparquet') LIMIT 1000"
     description := "Show all buildings in Estonia (limited to 1000)" },
   { keyword := "commercial"
     query := "SELECT *, ST_AsText(geometry) as geometry_wkt FROM read_parquet('buildings.geoparquet') WHERE building = 'commercial' OR building = 'retail' OR building = 'office' LIMIT 1000"
     description := "Show commercial buildings and offices" },
   { keyword := "residential"
     query := "SELECT *, ST_AsText(geometry) as geometry_wkt FROM read_parquet('buildings.geoparquet') WHERE building = 'residential' OR building = 'house' OR building = 'apartments' LIMIT 1000"
     description := "Show residential buildings and houses" },
   { keyword := "roads"
     query := "SELECT *, ST_AsText(geometry) as geometry_wkt FROM read_parquet('roads.geoparquet') LIMIT 1000"
     description := "Show all roads in Estonia (limited to 1000)" },
   { keyword := "highway"
     query := "SELECT *, ST_AsText(geometry) as geometry_wkt FROM read_parquet('roads.geoparquet') WHERE highway IN ('motorway', 'trunk', 'primary', 'secondary') LIMIT 1000"
     description := "Show major highways and primary roads" },
   { keyword := "landuse"
     query := "SELECT *, ST_AsText(geometry) as geometry_wkt FROM read_parquet('landuse.geoparquet') LIMIT 1000"
     description := "Show all land use areas in Estonia (limited to 1000)" },
   { keyword := "residential-areas"
     query := "SELECT *, ST_AsText(geometry) as geometry_wkt FROM read_parquet('landuse.geoparquet') WHERE landuse = 'residential' LIMIT 1000"
     description := "Show residential land use areas" },
   { keyword := "commercial-zones"
     query := "SELECT *, ST_AsText(geometry) as geometry_wkt FROM read_parquet('landuse.geoparquet') WHERE landuse = 'commercial' OR landuse = 'retail' LIMIT 1000"
     description := "Show commercial and retail zones" },
   { keyword := "parks"
     query := "SELECT *, ST_AsText(geometry) as geometry_wkt FROM read_parquet('landuse.geoparquet') WHERE landuse = 'park' OR landuse = 'recreation_ground' OR landuse = 'leisure' LIMIT 1000"
     description := "Show parks and recreational areas" },
   { keyword := "industrial"
     query := "SELECT *, ST_AsText(geometry) as geometry_wkt FROM read_parquet('landuse.geoparquet') WHERE landuse = 'industrial' OR landuse = 'manufacturing' LIMIT 1000"
     description := "Show industrial areas" },
   { keyword := "schools"
     query := "SELECT *, ST_AsText(geometry) as geometry_wkt FROM read_parquet('buildings.geoparquet') WHERE building = 'school' OR building = 'university' OR building = 'college' LIMIT 1000"
     description := "Show schools and educational buildings" },
   { keyword := "hospitals"
     query := "SELECT *, ST_AsText(geometry) as geometry_wkt FROM read_parquet('buildings.geoparquet') WHERE building = 'hospital' OR building = 'clinic' OR building = 'medical' LIMIT 1000"
     description := "Show hospitals and medical facilities" },
   { keyword := "schema"
     query := "DESCRIBE SELECT * FROM read_parquet('buildings.geoparquet') LIMIT 0"
     description := "Show buildings table schema" }]

/-- The known-city centroid table of the spec (§4.3, the city
coordinate table also listed in the reasoning-service prompt). -/
def cityTable : List (String × String × String) :=
  [("tartu", "26.7251", "58.3776"), ("tallinn", "24.7536", "59.4369"),
   ("pärnu", "24.4971", "58.3858"), ("narva", "28.1906", "59.3772"),
   ("kohtla-järve", "27.2731", "59.3986"), ("viljandi", "25.5900", "58.3639"),
   ("rakvere", "26.3558", "59.3464"), ("maardu", "25.0250", "59.4767"),
   ("kuressaare", "22.4853", "58.2525"), ("sillamäe", "27.7639", "59.3997")]

/-- Modelled from the spec: `generateLocationQuery`, imported by the
regex-fallback ChatBox from `duckdbService.ts` but removed from that
file in src ("OpenAI now handles all query generation").  Per §4.3
step 5: a deterministic template
`SELECT *, ST_AsText(geometry) AS geometry_wkt FROM read_parquet(<dataset>) [WHERE <spatial predicate>] LIMIT 1000`,
where the `ST_DWithin` predicate with the 1 km ≈ 1/111 degree
approximation around the known city centroid is included exactly when
`location` matches a known city, and omitted otherwise. -/
def generateLocationQuery (dataset location : String) (radius : Nat) : String :=
  match cityTable.find? fun e => e.1 = location with
  | some e =>
    "SELECT *, ST_AsText(geometry) as geometry_wkt FROM read_parquet('" ++ dataset ++
      ".geoparquet') WHERE ST_DWithin(geometry, ST_Point(" ++ e.2.1 ++ ", " ++ e.2.2 ++
      "), " ++ toString radius ++ "/111.0) LIMIT 1000"
  | none =>
    "SELECT *, ST_AsText(geometry) as geometry_wkt FROM read_parquet('" ++ dataset ++
      ".geoparquet') LIMIT 1000"

/-- The three resolver outcomes. -/
inductive Directive where
  | centerOn (place : String)
  | explainTypes
  | execute (queryType : String) (location : String) (radius : Nat) (query : String)
  deriving DecidableEq, Repr

/-- The full-table query used when no location was extracted. -/
def allOfDatasetQuery (dataset : String) : String :=
  "SELECT *, ST_AsText(geometry) as geometry_wkt FROM read_parquet('" ++ dataset ++
    ".geoparquet') LIMIT 1000"

/-- The resolution logic of `handleQuery` (lines 72-170 of the
regex-fallback ChatBox; the center branch is identical in
`ChatBox.tsx` lines 77-85): center directive first, then the
"available data types" explanation, then location/radius extraction,
dataset classification with the canned-query fallback, defaulting to
buildings. -/
def handleQueryResolve (queryText : String) : Directive :=
  let l := queryText.data
  match centerMatch l with
  | some cap =>
    if cap.isEmpty then handleQueryClassify l
    else Directive.centerOn (String.mk (trimJs cap))
  | none => handleQueryClassify l
where
  /-- Lines 87-170, after the center branch did not fire. -/
  handleQueryClassify (l : List Char) : Directive :=
    let lower := l.map Char.toLower
    if includesStr lower "available" || includesStr lower "types" ||
        includesStr lower "what" then
      .explainTypes
    else
      let location := extractLocation l
      let radius := extractRadius l
      if includesStr lower "building" then
        .execute "buildings" location radius
          (if location ≠ "" then generateLocationQuery "buildings" location radius
           else allOfDatasetQuery "buildings")
      else if includesStr lower "road" || includesStr lower "highway" ||
          includesStr lower "street" then
        .execute "roads" location radius
          (if location ≠ "" then generateLocationQuery "roads" location radius
           else allOfDatasetQuery "roads")
      else if includesStr lower "landuse" || includesStr lower "area" ||
          includesStr lower "zone" || includesStr lower "park" ||
          includesStr lower "residential" || includesStr lower "commercial" then
        .execute "landuse" location radius
          (if location ≠ "" then generateLocationQuery "landuse" location radius
           else allOfDatasetQuery "landuse")
      else
        match getSampleQueries.find? fun sq =>
            includesStr lower (String.mk (sq.keyword.data.map Char.toLower)) with
        | some matchedQuery => .execute matchedQuery.keyword location radius matchedQuery.query
        | none =>
          .execute "buildings" location radius
            (if location ≠ "" then generateLocationQuery "buildings" location radius
             else allOfDatasetQuery "buildings")


/-! ## JSON values, `JSON.parse` and `JSON.stringify`

Used by `openaiService.ts` (parsing the reasoning-service response)
and `ExportPanel.tsx` (serializing the export document).  Numbers are
`ℚ` (the exact-decimal idealization of JavaScript floats). -/

inductive Json where
  | null
  | bool (b : Bool)
  | num (q : ℚ)
  | str (s : String)
  | arr (elems : List Json)
  | obj (fields : List (String × Json))

/-- JSON whitespace. -/
def jsonWs (c : Char) : Bool := c = ' ' || c = '\t' || c = '\n' || c = '\r'

/-- Is this a hexadecimal digit, and its value. -/
def hexVal (c : Char) : Option Nat :=
  if c.isDigit then some (c.toNat - 48)
  else if 'a' ≤ c && c ≤ 'f' then some (c.toNat - 87)
  else if 'A' ≤ c && c ≤ 'F' then some (c.toNat - 55)
  else none

/-- Body of a JSON string literal (after the opening quote), with the
standard escapes.  A `\uXXXX` code unit is materialized with
`Char.ofNat` (lone surrogates degrade to `'\0'`, a simplification that
no code path of this repository exercises). -/
def parseJsonStrAux : Nat → List Char → List Char → Option (List Char × List Char)
  | 0, _, _ => none
  | _ + 1, _, [] => none
  | fuel + 1, acc, c :: r =>
    if c = '"' then some (acc.reverse, r)
    else if c = '\\' then
      match r with
      | [] => none
      | e :: r2 =>
        if e = '"' then parseJsonStrAux fuel ('"' :: acc) r2
        else if e = '\\' then parseJsonStrAux fuel ('\\' :: acc) r2
        else if e = '/' then parseJsonStrAux fuel ('/' :: acc) r2
        else if e = 'b' then parseJsonStrAux fuel ('\x08' :: acc) r2
        else if e = 'f' then parseJsonStrAux fuel ('\x0c' :: acc) r2
        else if e = 'n' then parseJsonStrAux fuel ('\n' :: acc) r2
        else if e = 'r' then parseJsonStrAux fuel ('\r' :: acc) r2
        else if e = 't' then parseJsonStrAux fuel ('\t' :: acc) r2
        else if e = 'u' then
          match r2 with
          | h1 :: h2 :: h3 :: h4 :: r3 =>
            match hexVal h1, hexVal h2, hexVal h3, hexVal h4 with
            | some v1, some v2, some v3, some v4 =>
              parseJsonStrAux fuel
                (Char.ofNat (((v1 * 16 + v2) * 16 + v3) * 16 + v4) :: acc) r3
            | _, _, _, _ => none
          | _ => none
        else none
    else if c.toNat < 32 then none
    else parseJsonStrAux fuel (c :: acc) r

/-- A JSON number token: `-? int frac? exp?`, returning its exact
rational value and the rest. -/
def parseJsonNum (l : List Char) : Option (ℚ × List Char) :=
  let sgn : ℚ × List Char :=
    if l.head? = some '-' then (-1, l.tail) else (1, l)
  match sgn.2 with
  | [] => none
  | c :: _ =>
    if !c.isDigit then none
    else
      let ip : List Char × List Char :=
        if c = '0' then (['0'], sgn.2.tail)
        else (sgn.2.takeWhile Char.isDigit, sgn.2.drop (sgn.2.takeWhile Char.isDigit).length)
      let fp : List Char × List Char :=
        if ip.2.head? = some '.' then
          (if (ip.2.tail.takeWhile Char.isDigit).isEmpty then ([], ip.2)
           else (ip.2.tail.takeWhile Char.isDigit,
             ip.2.tail.drop (ip.2.tail.takeWhile Char.isDigit).length))
        else ([], ip.2)
      if fp.2.head? = some '.' then none
      else
        let base : ℚ :=
          sgn.1 * ((digitsToNat ip.1 : ℚ) +
            (digitsToNat fp.1 : ℚ) / (10 : ℚ) ^ fp.1.length)
        match fp.2 with
        | e :: t =>
          if e = 'e' || e = 'E' then
            let es : Int × List Char :=
              if t.head? = some '+' then (1, t.tail)
              else if t.head? = some '-' then (-1, t.tail)
              else (1, t)
            let eds := es.2.takeWhile Char.isDigit
            if eds.isEmpty then none
            else some (base * (10 : ℚ) ^ (es.1 * (digitsToNat eds : Int)),
              es.2.drop eds.length)
          else some (base, fp.2)
        | [] => some (base, [])

mutual

/-- Recursive-descent `JSON.parse`, fueled (the fuel only bounds the
recursion depth; `jsonParse` supplies more than enough). -/
def parseJsonVal : Nat → List Char → Option (Json × List Char)
  | 0, _ => none
  | fuel + 1, l =>
    match l.dropWhile jsonWs with
    | 'n' :: 'u' :: 'l' :: 'l' :: r => some (.null, r)
    | 't' :: 'r' :: 'u' :: 'e' :: r => some (.bool true, r)
    | 'f' :: 'a' :: 'l' :: 's' :: 'e' :: r => some (.bool false, r)
    | '"' :: r =>
      match parseJsonStrAux (r.length + 1) [] r with
      | some (cs, r2) => some (.str (String.mk cs), r2)
      | none => none
    | '[' :: r =>
      if (r.dropWhile jsonWs).head? = some ']' then
        some (.arr [], (r.dropWhile jsonWs).tail)
      else
        match parseJsonItems fuel r with
        | some (vs, r2) => some (.arr vs, r2)
        | none => none
    | '\x7b' :: r =>
      if (r.dropWhile jsonWs).head? = some '\x7d' then
        some (.obj [], (r.dropWhile jsonWs).tail)
      else
        match parseJsonFields fuel r with
        | some (kvs, r2) => some (.obj kvs, r2)
        | none => none
    | rest =>
      match parseJsonNum rest with
      | some (q, r2) => some (.num q, r2)
      | none => none

/-- Array elements after `[`: value (`,` value)* `]`. -/
def parseJsonItems : Nat → List Char → Option (List Json × List Char)
  | 0, _ => none
  | fuel + 1, l =>
    match parseJsonVal fuel l with
    | none => none
    | some (v, r) =>
      if (r.dropWhile jsonWs).head? = some ',' then
        match parseJsonItems fuel (r.dropWhile jsonWs).tail with
        | some (vs, r3) => some (v :: vs, r3)
        | none => none
      else if (r.dropWhile jsonWs).head? = some ']' then
        some ([v], (r.dropWhile jsonWs).tail)
      else none

/-- Object members after the opening brace:
string `:` value (`,` string `:` value)* and the closing brace. -/
def parseJsonFields : Nat → List Char → Option (List (String × Json) × List Char)
  | 0, _ => none
  | fuel + 1, l =>
    match l.dropWhile jsonWs with
    | '"' :: r =>
      match parseJsonStrAux (r.length + 1) [] r with
      | none => none
      | some (k, r2) =>
        if (r2.dropWhile jsonWs).head? = some ':' then
          match parseJsonVal fuel (r2.dropWhile jsonWs).tail with
          | none => none
          | some (v, r4) =>
            if (r4.dropWhile jsonWs).head? = some ',' then
              match parseJsonFields fuel (r4.dropWhile jsonWs).tail with
              | some (kvs, r6) => some ((String.mk k, v) :: kvs, r6)
              | none => none
            else if (r4.dropWhile jsonWs).head? = some '\x7d' then
              some ([(String.mk k, v)], (r4.dropWhile jsonWs).tail)
            else none
        else none
    | _ => none

end

/-- `JSON.parse`: parse one value and require only whitespace after
it. -/
def jsonParse (s : String) : Option Json :=
  match parseJsonVal (2 * s.length + 2) s.data with
  | some (v, rest) => if (rest.dropWhile jsonWs).isEmpty then some v else none
  | none => none


/-! ## openaiService: `analyzeQueryWithGPT`

`openaiService.ts` lines 14-163.  The Gemini call is the external
reasoning-service collaborator; its outcome is either a thrown error
(network failure, API error - anything `model.generateContent` or
`response.text()` can throw) or a response text.  The missing API key
(line 20) is modelled as a separate input since it throws before the
call.  All throws land in the outer catch (lines 151-162), which
returns the fixed default intent instead of rethrowing. -/

/-- Outcome of the reasoning-service call. -/
inductive ServiceOutcome where
  | unreachable (msg : String)
  | response (text : String)

/-- The shape of the object `analyzeQueryWithGPT` returns
(`QueryIntent`, lines 5-12).  The cast `parsed as QueryIntent` is
unchecked at runtime, so the fields hold whatever JSON values were
parsed. -/
structure QueryIntent where
  dataType : Json
  location : Option Json
  radius : Option Json
  filters : Option Json
  query : Json
  explanation : Json

/-- The fixed buildings-around-Tartu SQL of every fallback site
(lines 113, 127, 144, 159). -/
def defaultSQL : String :=
  "SELECT *, ST_AsText(geometry) as geometry_wkt FROM read_parquet('buildings.geoparquet') WHERE ST_DWithin(geometry, ST_Point(26.7251, 58.3776), 0.09) LIMIT 1000"

/-- The fallback object literal, as a JSON object (the value assigned
to `parsed` at the two in-band fallback sites). -/
def defaultIntentJson : Json :=
  .obj [("dataType", .str "buildings"), ("location", .str "Tartu"),
        ("radius", .num 10), ("filters", .obj []), ("query", .str defaultSQL),
        ("explanation", .str "Showing buildings around Tartu as an example")]

/-- The fixed default intent (the fallback object viewed through the
`QueryIntent` interface). -/
def defaultIntent : QueryIntent :=
  { dataType := .str "buildings", location := some (.str "Tartu")
    radius := some (.num 10), filters := some (.obj [])
    query := .str defaultSQL
    explanation := .str "Showing buildings around Tartu as an example" }

/-- JavaScript property access on a parsed JSON value (duplicate keys:
last wins, as in an object literal). -/
def Json.getField (j : Json) (k : String) : Option Json :=
  match j with
  | .obj kvs => ((kvs.reverse.find? fun kv => kv.1 = k)).map fun kv => kv.2
  | _ => none

/-- JavaScript truthiness of a field of a parsed JSON value. -/
def jsonTruthy : Option Json → Bool
  | none => false
  | some .null => false
  | some (.bool b) => b
  | some (.num q) => !(q = 0)
  | some (.str s) => !(s = "")
  | some (.arr _) => true
  | some (.obj _) => true

/-- `return parsed as QueryIntent`: read the six interface fields off
the parsed object. -/
def toIntent (j : Json) : QueryIntent :=
  { dataType := (j.getField "dataType").getD .null
    location := j.getField "location"
    radius := j.getField "radius"
    filters := j.getField "filters"
    query := (j.getField "query").getD .null
    explanation := (j.getField "explanation").getD .null }

/-- Strip the trailing ` \s*``` ` fence (the
`.replace(/\s*```$/, '')` of lines 91 and 93). -/
def stripTrailingFence (l : List Char) : List Char :=
  if List.isSuffixOf "```".data l then
    (((l.take (l.length - 3)).reverse.dropWhile isWsJs)).reverse
  else l

/-- Lines 89-94: `content.trim()` and code-fence removal
(`^```json\s*` or `^```\s*`, then the trailing fence - the trailing
replace only runs inside the two fence branches). -/
def cleanResponse (content : String) : List Char :=
  let t := trimJs content.data
  if List.isPrefixOf "```json".data t then
    stripTrailingFence ((t.drop 7).dropWhile isWsJs)
  else if List.isPrefixOf "```".data t then
    stripTrailingFence ((t.drop 3).dropWhile isWsJs)
  else t

/-- The prefix of `l` that ends just before its last closing brace,
`none` when `l` has no closing brace. -/
def beforeLastClose (l : List Char) : Option (List Char) :=
  match l.reverse.dropWhile (fun c => c ≠ '\x7d') with
  | [] => none
  | _ :: r3 => some r3.reverse

/-- `cleanContent.match(/\x7b[\s\S]*\x7d/)` (line 104): from the first
opening brace that has a closing brace somewhere after it, up to the
LAST closing brace of the text (greedy `[\s\S]*`). -/
def extractBraces : List Char → Option (List Char)
  | [] => none
  | c :: rest =>
    if c = '\x7b' then
      match beforeLastClose rest with
      | some content => some ('\x7b' :: (content ++ ['\x7d']))
      | none => extractBraces rest
    else extractBraces rest

/-- The required-field validation of line 137:
`!parsed.dataType || !parsed.query || !parsed.explanation` throws;
this is the complement. -/
def intentFieldsOk (j : Json) : Bool :=
  jsonTruthy (j.getField "dataType") && jsonTruthy (j.getField "query") &&
    jsonTruthy (j.getField "explanation")

/-- Lines 88-149, after a non-empty response text was obtained: fence
cleanup, strict parse, brace-span recovery parse, fallback object; then
the required-field validation (line 137) and the cast.  Note that when
the fallback object is substituted for `parsed`, the validation passes
and the result is exactly `defaultIntent`. -/
def analyzeContent (content : String) : QueryIntent :=
  let clean := cleanResponse content
  let parsed : Json :=
    match jsonParse (String.mk clean) with
    | some j => j
    | none =>
      match extractBraces clean with
      | none => defaultIntentJson
      | some sub =>
        match jsonParse (String.mk sub) with
        | some j => j
        | none => defaultIntentJson
  if intentFieldsOk parsed then toIntent parsed else defaultIntent

/-- The body of the `try` block (lines 15-149): `throw` is `.error`. -/
def analyzeBody (apiKey : String) (outcome : ServiceOutcome) :
    Except String QueryIntent :=
  if apiKey = "" then
    .error "VITE_GEMINI_API_KEY environment variable is not set"
  else
    match outcome with
    | .unreachable msg => .error msg
    | .response content =>
      if content = "" then .error "No response from Gemini"
      else .ok (analyzeContent content)

/-- `analyzeQueryWithGPT` (lines 14-163): the outer catch turns every
throw into the fixed default intent; the user query only feeds the
prompt, so the result depends on the service outcome alone. -/
def analyzeQueryWithGPT (_userQuery apiKey : String) (outcome : ServiceOutcome) :
    QueryIntent :=
  match analyzeBody apiKey outcome with
  | .ok i => i
  | .error _ => defaultIntent

/-- The failure tiers of the claim: service unreachable (or key
missing), empty response, JSON unrecoverably malformed (strict parse
fails and the brace-span recovery also fails or finds no span), or a
parse that succeeded but misses a required field. -/
def failureTier (apiKey : String) (outcome : ServiceOutcome) : Bool :=
  apiKey = "" ||
    match outcome with
    | .unreachable _ => true
    | .response content =>
      content = "" ||
        (let clean := cleanResponse content
         match jsonParse (String.mk clean) with
         | some j => !(intentFieldsOk j)
         | none =>
           match extractBraces clean with
           | none => true
           | some sub =>
             match jsonParse (String.mk sub) with
             | none => true
             | some j => !(intentFieldsOk j))

/-! ## ExportPanel.tsx: `exportAsGeoJSON` and the export document

`handleExport` (lines 21-31) filters the history to the selected
queries; `exportAsGeoJSON` (lines 33-60) merges their features into one
FeatureCollection, stamping each merged feature's properties with its
source layer's name and id via object spread, and serializes it with
`JSON.stringify(combinedGeoJSON, null, 2)`. -/

/-- JavaScript object-spread insertion `\x7b...fs, k: v\x7d`: an
existing key keeps its position and takes the new value, a new key is
appended. -/
def jsSpreadInsert (fs : List (String × RVal)) (k : String) (v : RVal) :
    List (String × RVal) :=
  if fs.any (fun kv => kv.1 = k) then
    fs.map (fun kv => if kv.1 = k then (k, v) else kv)
  else fs ++ [(k, v)]

/-- The merged copy of one feature (lines 37-44):
`\x7b...feature, properties: \x7b...feature.properties, query_name, query_id\x7d\x7d`. -/
def stampFeature (qname qid : String) (f : Feature) : Feature :=
  { f with properties :=
      (jsSpreadInsert (jsSpreadInsert f.properties "query_name" (.str qname))
        "query_id" (.str qid)) }

/-- `exportAsGeoJSON` (lines 33-46): the merged FeatureCollection. -/
def exportAsGeoJSON (queries : List QueryResult) : FeatureCollection :=
  { features := queries.flatMap (fun q => q.data.features.map (stampFeature q.name q.id)) }

/-- `handleExport` (line 24): the selected layers, in history order. -/
def queriesToExport (queryHistory : List QueryResult) (selectedQueries : List String) :
    List QueryResult :=
  queryHistory.filter (fun q => selectedQueries.contains q.id)

/-- A runtime value as `JSON.stringify` renders it (`NaN`, modelled as
`.num none`, prints as `null`). -/
def rvalToJson : RVal → Json
  | .num none => .null
  | .num (some q) => .num q
  | .str s => .str s
  | .boolV b => .bool b
  | .nullV => .null
  | .nested fs => .obj (rvalFields fs)
where
  rvalFields : List (String × RVal) → List (String × Json)
    | [] => []
    | (k, v) :: t => (k, rvalToJson v) :: rvalFields t

/-- A geometry object in document key order (`type`, `coordinates`),
exactly as built by `convertToGeoJSON`. -/
def geometryToJson : Geometry → Json
  | .point cs => .obj [("type", .str "Point"),
      ("coordinates", .arr (cs.map rvalToJson))]
  | .multiPoint cs => .obj [("type", .str "MultiPoint"),
      ("coordinates", .arr (cs.map (fun p => .arr (p.map rvalToJson))))]
  | .lineString cs => .obj [("type", .str "LineString"),
      ("coordinates", .arr (cs.map (fun p => .arr (p.map rvalToJson))))]
  | .polygon cs => .obj [("type", .str "Polygon"),
      ("coordinates", .arr (cs.map (fun ring =>
        .arr (ring.map (fun p => .arr (p.map rvalToJson))))))]
  | .multiLineString cs => .obj [("type", .str "MultiLineString"),
      ("coordinates", .arr (cs.map (fun ring =>
        .arr (ring.map (fun p => .arr (p.map rvalToJson))))))]
  | .multiPolygon cs => .obj [("type", .str "MultiPolygon"),
      ("coordinates", .arr (cs.map (fun poly =>
        .arr (poly.map (fun ring =>
          .arr (ring.map (fun p => .arr (p.map rvalToJson))))))))]

/-- A feature in document key order (`type`, `id`, `geometry`,
`properties`), the object literal of `convertToGeoJSON` lines 232-241
(object spread preserves this key order in the merged copy). -/
def featureToJson (f : Feature) : Json :=
  .obj [("type", .str "Feature"), ("id", .num (f.id : ℚ)),
        ("geometry", match f.geometry with
          | none => .null
          | some g => geometryToJson g),
        ("properties", .obj (f.properties.map (fun kv => (kv.1, rvalToJson kv.2))))]

/-- The export document `combinedGeoJSON` (lines 34-46) as a JSON
value. -/
def exportDocJson (queries : List QueryResult) : Json :=
  .obj [("type", .str "FeatureCollection"),
        ("features", .arr ((exportAsGeoJSON queries).features.map featureToJson))]

/-! ### `JSON.stringify`

The document text.  `JSON.stringify(x, null, 2)` differs from this
compact rendering only in inter-token whitespace, which `JSON.parse`
skips, and in numeric notation: a finite double is an exact
`a·10^(-k)` and is printed here in exponent notation, which
`JSON.parse` reads back to the same value. -/

/-- The decimal digit of value `d`. -/
def digitChar (d : Nat) : Char := Char.ofNat (48 + d)

/-- Big-endian decimal digits of a natural number. -/
def natDigits (n : Nat) : List Char :=
  if n = 0 then ['0'] else (Nat.digits 10 n).reverse.map digitChar

/-- The smallest exponent `k ≤ d` with `d ∣ 10 ^ k` (for a 10-smooth
`d` one exists). -/
def tenExp (d : Nat) : Nat :=
  (((List.range (d + 1)).find? (fun k => decide (d ∣ 10 ^ k)))).getD d

/-- A finite JavaScript number has a 10-smooth denominator; such a
rational prints exactly. -/
def printableNum (q : ℚ) : Bool := decide (q.den ∣ 10 ^ q.den)

/-- Exact rendering `a e-k` of `q = a·10^(-k)`. -/
def printNum (q : ℚ) : List Char :=
  let k := tenExp q.den
  let a := q.num * ((10 : Int) ^ k / (q.den : Int))
  (if a < 0 then ['-'] else []) ++ natDigits a.natAbs ++ 'e' :: '-' :: natDigits k

/-- Lower-case hexadecimal digit. -/
def hexDigitChar (n : Nat) : Char :=
  if n < 10 then Char.ofNat (48 + n) else Char.ofNat (87 + n)

/-- `JSON.stringify` string escaping: quote, backslash, and control
characters. -/
def escChar (c : Char) : List Char :=
  if c = '"' then ['\\', '"']
  else if c = '\\' then ['\\', '\\']
  else if c.toNat < 32 then
    ['\\', 'u', '0', '0', hexDigitChar (c.toNat / 16), hexDigitChar (c.toNat % 16)]
  else [c]

/-- The body of a serialized string literal. -/
def printStrBody (l : List Char) : List Char := l.flatMap escChar

/-- A serialized string literal. -/
def printStr (s : String) : List Char := '"' :: (printStrBody s.data ++ ['"'])

/-- Compact `JSON.stringify`. -/
def printJson : Json → List Char
  | .null => "null".data
  | .bool true => "true".data
  | .bool false => "false".data
  | .num q => printNum q
  | .str s => printStr s
  | .arr vs => '[' :: (printItems vs ++ [']'])
  | .obj kvs => '\x7b' :: (printFields kvs ++ ['\x7d'])
where
  printItems : List Json → List Char
    | [] => []
    | [v] => printJson v
    | v :: vs => printJson v ++ ',' :: printItems vs
  printFields : List (String × Json) → List Char
    | [] => []
    | [(k, v)] => printStr k ++ ':' :: printJson v
    | (k, v) :: kvs => printStr k ++ ':' :: printJson v ++ ',' :: printFields kvs

/-- Every number of the value prints exactly. -/
def printableJson : Json → Bool
  | .num q => printableNum q
  | .arr vs => printableL vs
  | .obj kvs => printableF kvs
  | _ => true
where
  printableL : List Json → Bool
    | [] => true
    | v :: vs => printableJson v && printableL vs
  printableF : List (String × Json) → Bool
    | [] => true
    | (_, v) :: kvs => printableJson v && printableF kvs

/-- A number token must not be followed by a digit it would absorb;
inside a document a value is always followed by a separator or by the
end of the text. -/
def numBreak : List Char → Bool
  | [] => true
  | c :: _ => !c.isDigit

/-! ### Lemmas: string primitives and the WKT patterns -/

/-- Characters a decimal numeric token may contain. -/
def numTokChar (c : Char) : Bool :=
  c ∈ ['0', '1', '2', '3', '4', '5', '6', '7', '8', '9', '+', '-', '.', 'e', 'E']

/-- A well-formed numeric token: non-empty, made of numeric-literal
characters, and accepted by the numeric-literal grammar. -/
def tokOk (t : List Char) : Bool :=
  !t.isEmpty && t.all numTokChar && (parseNumLit t).isSome

theorem numTokChar_facts {c : Char} (h : numTokChar c = true) :
    isWsJs c = false ∧ c ≠ ')' ∧ c ≠ ',' ∧ c ≠ ' ' ∧ c ≠ '(' ∧
      ciEq c 'P' = false ∧ ciEq c 'L' = false ∧ ciEq c 'M' = false := by
  simp only [numTokChar, List.mem_cons, List.not_mem_nil, or_false,
    decide_eq_true_eq] at h
  rcases h with rfl | rfl | rfl | rfl | rfl | rfl | rfl | rfl | rfl | rfl | rfl | rfl |
    rfl | rfl | rfl
  all_goals decide

theorem ciEq_refl (c : Char) : ciEq c c = true := by simp [ciEq]

theorem stripKwCI_append : ∀ (kw r : List Char), stripKwCI kw (kw ++ r) = some r := by
  intro kw
  induction kw with
  | nil => intro r; rfl
  | cons c cs ih => intro r; simp [stripKwCI, ciEq_refl, ih]

theorem stripRun_append :
    ∀ (n : Nat) (ch : Char) (r : List Char),
      stripRun ch n (List.replicate n ch ++ r) = some r := by
  intro n
  induction n with
  | zero => intro ch r; rfl
  | succ m ih => intro ch r; simp [List.replicate_succ, stripRun, ih]

theorem takeWhile_stop :
    ∀ (a b : List Char), (∀ c ∈ a, c ≠ ')') →
      (a ++ ')' :: b).takeWhile (fun c => c ≠ ')') = a := by
  intro a
  induction a with
  | nil => intro b _; simp [List.takeWhile]
  | cons x xs ih =>
    intro b h
    have hx : x ≠ ')' := h x (List.mem_cons_self x xs)
    simp only [List.cons_append, List.takeWhile_cons]
    simp only [hx, decide_eq_true_eq, ne_eq, not_false_eq_true, if_pos]
    rw [ih b fun c hc => h c (List.mem_cons_of_mem x hc)]

/-- The pattern attempt succeeds at position 0 on a canonical
`KW(^n cap )^m rest` text whose capture is non-empty and closes-free. -/
theorem tryKwParen_hit (kw cap rest : List Char) (nO nC : Nat)
    (hne : cap ≠ []) (hcap : ∀ c ∈ cap, c ≠ ')') :
    tryKwParen kw (nO + 1) (nC + 1)
      (kw ++ (List.replicate (nO + 1) '(' ++ (cap ++ (List.replicate (nC + 1) ')' ++ rest)))) =
      some cap := by
  have hrep : List.replicate (nO + 1) '(' ++ (cap ++ (List.replicate (nC + 1) ')' ++ rest)) =
      '(' :: (List.replicate nO '(' ++ (cap ++ (List.replicate (nC + 1) ')' ++ rest))) := by
    simp [List.replicate_succ]
  have hempty : cap.isEmpty = false := by
    cases cap with
    | nil => exact absurd rfl hne
    | cons x xs => rfl
  have hsplit : cap ++ (List.replicate (nC + 1) ')' ++ rest) =
      cap ++ ')' :: (List.replicate nC ')' ++ rest) := by
    simp [List.replicate_succ]
  unfold tryKwParen
  rw [stripKwCI_append, Option.some_bind, hrep,
    List.dropWhile_cons_of_neg (by decide), ← hrep, stripRun_append, Option.some_bind,
    hsplit, takeWhile_stop cap _ hcap, hempty]
  simp only [Bool.false_eq_true, if_false]
  rw [List.drop_left]
  rw [show (')' :: (List.replicate nC ')' ++ rest)) =
    List.replicate (nC + 1) ')' ++ rest from by simp [List.replicate_succ]]
  rw [stripRun_append]
  rfl

theorem scanMatch_eq_some {α : Type} (attempt : List Char → Option α)
    (s : List Char) (r : α) (h : attempt s = some r) : scanMatch attempt s = some r := by
  cases s with
  | nil => simpa [scanMatch] using h
  | cons c rest => simp [scanMatch, h]

theorem scanMatch_cons_none {α : Type} (attempt : List Char → Option α)
    (c : Char) (rest : List Char) (h : attempt (c :: rest) = none) :
    scanMatch attempt (c :: rest) = scanMatch attempt rest := by
  simp [scanMatch, h]

theorem tryKwParen_head_ne (k0 : Char) (kw : List Char) (nO nC : Nat)
    (c : Char) (rest : List Char) (h : ciEq c k0 = false) :
    tryKwParen (k0 :: kw) nO nC (c :: rest) = none := by
  unfold tryKwParen
  rw [show stripKwCI (k0 :: kw) (c :: rest) = none from by simp [stripKwCI, h]]
  rfl

theorem tryKwParen_nil (k0 : Char) (kw : List Char) (nO nC : Nat) :
    tryKwParen (k0 :: kw) nO nC [] = none := by
  unfold tryKwParen
  rw [show stripKwCI (k0 :: kw) [] = none from rfl]
  rfl

/-- The scan finds nothing when no character of the text can start
the keyword. -/
theorem scanMatch_none_of_no_head (k0 : Char) (kw : List Char) (nO nC : Nat) :
    ∀ (s : List Char), (∀ c ∈ s, ciEq c k0 = false) →
      scanMatch (tryKwParen (k0 :: kw) nO nC) s = none := by
  intro s
  induction s with
  | nil => intro _; simp [scanMatch, tryKwParen_nil]
  | cons c rest ih =>
    intro h
    rw [scanMatch_cons_none _ _ _
      (tryKwParen_head_ne k0 kw nO nC c rest (h c (List.mem_cons_self c rest)))]
    exact ih fun x hx => h x (List.mem_cons_of_mem c hx)

theorem splitChar_no (ch : Char) :
    ∀ (l : List Char), (∀ c ∈ l, c ≠ ch) → splitChar ch l = [l] := by
  intro l
  induction l with
  | nil => intro _; rfl
  | cons c r ih =>
    intro h
    have hc : c ≠ ch := h c (List.mem_cons_self c r)
    rw [splitChar, if_neg hc, ih fun x hx => h x (List.mem_cons_of_mem c hx)]

theorem splitChar_append (ch : Char) :
    ∀ (a b : List Char), (∀ c ∈ a, c ≠ ch) →
      splitChar ch (a ++ ch :: b) = a :: splitChar ch b := by
  intro a
  induction a with
  | nil =>
    intro b _
    simp only [List.nil_append]
    rw [splitChar, if_pos rfl]
  | cons x xs ih =>
    intro b h
    have hx : x ≠ ch := h x (List.mem_cons_self x xs)
    simp only [List.cons_append]
    rw [splitChar, if_neg hx, ih b fun c hc => h c (List.mem_cons_of_mem x hc)]

theorem splitChar_join (ch : Char) :
    ∀ (parts : List (List Char)), parts ≠ [] →
      (∀ p ∈ parts, ∀ c ∈ p, c ≠ ch) →
      splitChar ch (joinChar ch parts) = parts := by
  intro parts
  induction parts with
  | nil => intro h _; exact absurd rfl h
  | cons p ps ih =>
    intro _ h
    match ps, ih with
    | [], _ =>
      rw [show joinChar ch [p] = p from rfl]
      exact splitChar_no ch p (h p (List.mem_cons_self p []))
    | q :: qs, ih =>
      rw [show joinChar ch (p :: q :: qs) = p ++ ch :: joinChar ch (q :: qs) from rfl]
      rw [splitChar_append ch p _ (h p (List.mem_cons_self p (q :: qs)))]
      rw [ih (by simp) fun x hx c hc => h x (List.mem_cons_of_mem p hx) c hc]


theorem dropWhile_ws_eq_self :
    ∀ (l : List Char), (∀ c, l.head? = some c → isWsJs c = false) →
      l.dropWhile isWsJs = l := by
  intro l h
  cases l with
  | nil => rfl
  | cons c r =>
    rw [List.dropWhile_cons_of_neg]
    simp [h c rfl]

theorem trimJs_eq_self (l : List Char)
    (h1 : ∀ c, l.head? = some c → isWsJs c = false)
    (h2 : ∀ c, l.getLast? = some c → isWsJs c = false) : trimJs l = l := by
  unfold trimJs
  rw [dropWhile_ws_eq_self l h1]
  rw [dropWhile_ws_eq_self l.reverse (fun c hc => h2 c (by rwa [List.head?_reverse] at hc))]
  exact List.reverse_reverse l

theorem tokOk_chars {t : List Char} (h : tokOk t = true) :
    t ≠ [] ∧ (∀ c ∈ t, numTokChar c = true) ∧ (parseNumLit t).isSome = true := by
  simp only [tokOk, Bool.and_eq_true, List.all_eq_true, decide_eq_true_eq,
    Bool.not_eq_eq_eq_not, Bool.not_false, List.isEmpty_iff] at h
  exact ⟨by
    intro hcontra
    have := h.1.1
    rw [hcontra] at this
    simp [List.isEmpty] at this, fun c hc => h.1.2 c hc, h.2⟩

theorem jsNumber_tok {t : List Char} (h : tokOk t = true) :
    jsNumber t = parseNumLit t := by
  obtain ⟨hne, hchars, _⟩ := tokOk_chars h
  have htrim : trimJs t = t := by
    apply trimJs_eq_self
    · intro c hc
      exact (numTokChar_facts (hchars c (by
        cases t with
        | nil => simp at hc
        | cons x xs => simp at hc; simp [hc]))).1
    · intro c hc
      exact (numTokChar_facts (hchars c (List.mem_of_mem_getLast? hc))).1
  unfold jsNumber
  rw [htrim]
  cases t with
  | nil => exact absurd rfl hne
  | cons x xs => rfl


theorem parseNumLit_open (r : List Char) : parseNumLit ('(' :: r) = none := by
  unfold parseNumLit
  simp [List.takeWhile_cons_of_neg]

theorem getLast?_cons_ne {d : Char} {l : List Char} (h : l ≠ []) :
    (d :: l).getLast? = l.getLast? := by
  obtain ⟨x, xs, rfl⟩ := List.exists_cons_of_ne_nil h
  rfl

theorem getLast?_append_cons {l1 l2 : List Char} {d : Char} (h : l2 ≠ []) :
    (l1 ++ d :: l2).getLast? = l2.getLast? := by
  obtain ⟨x, xs, rfl⟩ := List.exists_cons_of_ne_nil h
  rw [List.getLast?_append, getLast?_cons_ne (by simp)]
  cases hg : (x :: xs).getLast? with
  | none =>
    rw [List.getLast?_eq_none_iff] at hg
    exact absurd hg (by simp)
  | some y => simp [hg]

theorem tok_not_ws {t : List Char} (h : tokOk t = true) :
    ∀ c ∈ t, isWsJs c = false := fun c hc =>
  (numTokChar_facts ((tokOk_chars h).2.1 c hc)).1

theorem tok_not_space {t : List Char} (h : tokOk t = true) :
    ∀ c ∈ t, c ≠ ' ' := fun c hc =>
  (numTokChar_facts ((tokOk_chars h).2.1 c hc)).2.2.2.1

theorem trimJs_pair {a b : List Char} (ha : tokOk a = true) (hb : tokOk b = true) :
    trimJs (a ++ ' ' :: b) = a ++ ' ' :: b := by
  obtain ⟨hane, hac, _⟩ := tokOk_chars ha
  obtain ⟨hbne, hbc, _⟩ := tokOk_chars hb
  apply trimJs_eq_self
  · intro c hc
    cases a with
    | nil => exact absurd rfl hane
    | cons x xs =>
      simp only [List.cons_append, List.head?_cons, Option.some.injEq] at hc
      subst hc
      exact tok_not_ws ha x (List.mem_cons_self x xs)
  · intro c hc
    rw [getLast?_append_cons (by
      intro hcontra
      exact hbne hcontra)] at hc
    exact tok_not_ws hb c (List.mem_of_mem_getLast? hc)

theorem parseCoordPair_pair {a b : List Char} (ha : tokOk a = true) (hb : tokOk b = true) :
    parseCoordPair (a ++ ' ' :: b) =
      [.num (parseNumLit a), .num (parseNumLit b)] := by
  unfold parseCoordPair
  rw [trimJs_pair ha hb]
  rw [splitChar_append ' ' a _ (tok_not_space ha)]
  rw [splitChar_no ' ' b (tok_not_space hb)]
  simp [jsNumber_tok ha, jsNumber_tok hb]

theorem trimJs_corrupt {a b : List Char} (_ha : tokOk a = true) (hb : tokOk b = true) :
    trimJs ('(' :: (a ++ ' ' :: b)) = '(' :: (a ++ ' ' :: b) := by
  apply trimJs_eq_self
  · intro c hc
    simp only [List.head?_cons, Option.some.injEq] at hc
    subst hc
    decide
  · intro c hc
    rw [show ('(' :: (a ++ ' ' :: b)) = ('(' :: a) ++ ' ' :: b from by simp] at hc
    rw [getLast?_append_cons (by
      intro hcontra
      exact (tokOk_chars hb).1 hcontra)] at hc
    exact tok_not_ws hb c (List.mem_of_mem_getLast? hc)

theorem jsNumber_corrupt {a : List Char} (ha : tokOk a = true) :
    jsNumber ('(' :: a) = none := by
  unfold jsNumber
  have htrim : trimJs ('(' :: a) = '(' :: a := by
    apply trimJs_eq_self
    · intro c hc
      simp only [List.head?_cons, Option.some.injEq] at hc
      subst hc
      decide
    · intro c hc
      rw [getLast?_cons_ne (tokOk_chars ha).1] at hc
      exact tok_not_ws ha c (List.mem_of_mem_getLast? hc)
  rw [htrim]
  simp [parseNumLit_open]

theorem parseCoordPair_corrupt {a b : List Char} (ha : tokOk a = true)
    (hb : tokOk b = true) :
    parseCoordPair ('(' :: (a ++ ' ' :: b)) = [.num none, .num (parseNumLit b)] := by
  unfold parseCoordPair
  rw [trimJs_corrupt ha hb]
  rw [show ('(' :: (a ++ ' ' :: b)) = ('(' :: a) ++ ' ' :: b from by simp]
  rw [splitChar_append ' ' ('(' :: a) _ (by
    intro c hc
    rcases List.mem_cons.mp hc with rfl | hc2
    · decide
    · exact tok_not_space ha c hc2)]
  rw [splitChar_no ' ' b (tok_not_space hb)]
  simp [jsNumber_corrupt ha, jsNumber_tok hb]


/-! ### Canonical well-formed WKT renders

Canonical WKT text of each recognized shape, used to quantify over
"every well-formed WKT string of shape S" in the claims: integer or
decimal tokens, a single space inside a pair, commas between pairs,
no whitespace after the keyword. -/

/-- Comma-joined `x y` pairs: the text between the parentheses. -/
def wktPairsRender (pairs : List (List Char × List Char)) : List Char :=
  joinChar ',' (pairs.map fun p => p.1 ++ ' ' :: p.2)

def wktPointRender (tx ty : List Char) : List Char :=
  kwPOINT ++ '(' :: ((tx ++ ' ' :: ty) ++ [')'])

def wktLineStringRender (pairs : List (List Char × List Char)) : List Char :=
  kwLINESTRING ++ '(' :: (wktPairsRender pairs ++ [')'])

def wktPolygonRender (pairs : List (List Char × List Char)) : List Char :=
  kwPOLYGON ++ '(' :: '(' :: (wktPairsRender pairs ++ [')', ')'])

def wktMultiPolygonRender (pairs : List (List Char × List Char)) : List Char :=
  kwMULTIPOLYGON ++ '(' :: '(' :: '(' :: (wktPairsRender pairs ++ [')', ')', ')'])

/-- Every pair consists of two well-formed numeric tokens. -/
def pairsOk (pairs : List (List Char × List Char)) : Bool :=
  pairs.all fun p => tokOk p.1 && tokOk p.2

theorem pairsOk_mem {pairs : List (List Char × List Char)}
    (h : pairsOk pairs = true) {p : List Char × List Char} (hp : p ∈ pairs) :
    tokOk p.1 = true ∧ tokOk p.2 = true := by
  simp only [pairsOk, List.all_eq_true, Bool.and_eq_true] at h
  exact h p hp

theorem mem_joinChar {P : Char → Prop} (ch : Char) :
    ∀ (parts : List (List Char)), P ch → (∀ p ∈ parts, ∀ c ∈ p, P c) →
      ∀ c ∈ joinChar ch parts, P c := by
  intro parts
  induction parts with
  | nil => intro _ _ c hc; simp [joinChar] at hc
  | cons p ps ih =>
    intro hch h c hc
    match ps with
    | [] => exact h p (List.mem_cons_self p []) c hc
    | q :: qs =>
      rw [show joinChar ch (p :: q :: qs) = p ++ ch :: joinChar ch (q :: qs) from rfl] at hc
      rcases List.mem_append.mp hc with h1 | h2
      · exact h p (List.mem_cons_self p (q :: qs)) c h1
      · rcases List.mem_cons.mp h2 with rfl | h3
        · exact hch
        · exact ih hch (fun x hx => h x (List.mem_cons_of_mem p hx)) c h3

theorem mem_pairsRender {pairs : List (List Char × List Char)}
    (h : pairsOk pairs = true) :
    ∀ c ∈ wktPairsRender pairs, numTokChar c = true ∨ c = ' ' ∨ c = ',' := by
  unfold wktPairsRender
  apply mem_joinChar (P := fun c => numTokChar c = true ∨ c = ' ' ∨ c = ',') ','
    (pairs.map fun p => p.1 ++ ' ' :: p.2) (Or.inr (Or.inr rfl))
  intro p hp c hc
  obtain ⟨q, hq, rfl⟩ := List.mem_map.mp hp
  obtain ⟨h1, h2⟩ := pairsOk_mem h hq
  rcases List.mem_append.mp hc with hcl | hcr
  · exact .inl ((tokOk_chars h1).2.1 c hcl)
  · rcases List.mem_cons.mp hcr with rfl | hcr2
    · exact .inr (.inl rfl)
    · exact .inl ((tokOk_chars h2).2.1 c hcr2)

theorem pairsRender_no_close {pairs : List (List Char × List Char)}
    (h : pairsOk pairs = true) : ∀ c ∈ wktPairsRender pairs, c ≠ ')' := by
  intro c hc
  rcases mem_pairsRender h c hc with hn | rfl | rfl
  · exact (numTokChar_facts hn).2.1
  · decide
  · decide

theorem pairsRender_no_comma {pairs : List (List Char × List Char)}
    (h : pairsOk pairs = true) :
    ∀ p ∈ pairs, ∀ c ∈ p.1 ++ ' ' :: p.2, c ≠ ',' := by
  intro p hp c hc
  obtain ⟨h1, h2⟩ := pairsOk_mem h hp
  rcases List.mem_append.mp hc with hcl | hcr
  · exact (numTokChar_facts ((tokOk_chars h1).2.1 c hcl)).2.2.1
  · rcases List.mem_cons.mp hcr with rfl | hcr2
    · decide
    · exact (numTokChar_facts ((tokOk_chars h2).2.1 c hcr2)).2.2.1

theorem pairsRender_not_P {pairs : List (List Char × List Char)}
    (h : pairsOk pairs = true) : ∀ c ∈ wktPairsRender pairs, ciEq c 'P' = false := by
  intro c hc
  rcases mem_pairsRender h c hc with hn | rfl | rfl
  · exact (numTokChar_facts hn).2.2.2.2.2.1
  · decide
  · decide

theorem pairsRender_not_L {pairs : List (List Char × List Char)}
    (h : pairsOk pairs = true) : ∀ c ∈ wktPairsRender pairs, ciEq c 'L' = false := by
  intro c hc
  rcases mem_pairsRender h c hc with hn | rfl | rfl
  · exact (numTokChar_facts hn).2.2.2.2.2.2.1
  · decide
  · decide


/-! ### Scan results on the canonical renders -/

theorem scan_point_pointRender {tx ty : List Char} (hx : tokOk tx = true)
    (hy : tokOk ty = true) :
    scanMatch (tryKwParen kwPOINT 1 1) (wktPointRender tx ty) =
      some (tx ++ ' ' :: ty) := by
  apply scanMatch_eq_some
  have hcap : ∀ c ∈ tx ++ ' ' :: ty, c ≠ ')' := by
    intro c hc
    rcases List.mem_append.mp hc with h1 | h2
    · exact (numTokChar_facts ((tokOk_chars hx).2.1 c h1)).2.1
    · rcases List.mem_cons.mp h2 with rfl | h3
      · decide
      · exact (numTokChar_facts ((tokOk_chars hy).2.1 c h3)).2.1
  have hne : tx ++ ' ' :: ty ≠ [] := by simp
  have := tryKwParen_hit kwPOINT (tx ++ ' ' :: ty) [] 0 0 hne hcap
  simpa [wktPointRender, List.replicate] using this

theorem scan_ls_lsRender {pairs : List (List Char × List Char)}
    (h : pairsOk pairs = true) (hne : pairs ≠ []) :
    scanMatch (tryKwParen kwLINESTRING 1 1) (wktLineStringRender pairs) =
      some (wktPairsRender pairs) := by
  apply scanMatch_eq_some
  have hcap := pairsRender_no_close h
  have hnonempty : wktPairsRender pairs ≠ [] := by
    obtain ⟨p, ps, rfl⟩ := List.exists_cons_of_ne_nil hne
    obtain ⟨h1, _⟩ := pairsOk_mem h (List.mem_cons_self p ps)
    obtain ⟨hp1, _, _⟩ := tokOk_chars h1
    obtain ⟨x, xs, hx⟩ := List.exists_cons_of_ne_nil hp1
    cases ps with
    | nil => simp [wktPairsRender, joinChar, hx]
    | cons q qs => simp [wktPairsRender, joinChar, hx]
  have := tryKwParen_hit kwLINESTRING (wktPairsRender pairs) [] 0 0 hnonempty hcap
  simpa [wktLineStringRender, List.replicate] using this

theorem scan_poly_polyRender {pairs : List (List Char × List Char)}
    (h : pairsOk pairs = true) (hne : pairs ≠ []) :
    scanMatch (tryKwParen kwPOLYGON 2 2) (wktPolygonRender pairs) =
      some (wktPairsRender pairs) := by
  apply scanMatch_eq_some
  have hcap := pairsRender_no_close h
  have hnonempty : wktPairsRender pairs ≠ [] := by
    obtain ⟨p, ps, rfl⟩ := List.exists_cons_of_ne_nil hne
    obtain ⟨h1, _⟩ := pairsOk_mem h (List.mem_cons_self p ps)
    obtain ⟨hp1, _, _⟩ := tokOk_chars h1
    obtain ⟨x, xs, hx⟩ := List.exists_cons_of_ne_nil hp1
    cases ps with
    | nil => simp [wktPairsRender, joinChar, hx]
    | cons q qs => simp [wktPairsRender, joinChar, hx]
  have := tryKwParen_hit kwPOLYGON (wktPairsRender pairs) [] 1 1 hnonempty hcap
  simpa [wktPolygonRender, List.replicate] using this

theorem scanMatch_none_cons {α : Type} (attempt : List Char → Option α)
    (c : Char) (rest : List Char) (h1 : attempt (c :: rest) = none)
    (h2 : scanMatch attempt rest = none) : scanMatch attempt (c :: rest) = none := by
  simp [scanMatch, h1, h2]

theorem scanMatch_some_cons {α : Type} (attempt : List Char → Option α)
    (c : Char) (rest : List Char) (r : α) (h1 : attempt (c :: rest) = none)
    (h2 : scanMatch attempt rest = some r) : scanMatch attempt (c :: rest) = some r := by
  simp [scanMatch, h1, h2]

theorem tryKwParen_strip_none (kw : List Char) (nO nC : Nat) (s : List Char)
    (h : stripKwCI kw s = none) : tryKwParen kw nO nC s = none := by
  unfold tryKwParen
  rw [h]
  rfl

theorem scan_point_lsRender {pairs : List (List Char × List Char)}
    (h : pairsOk pairs = true) :
    scanMatch (tryKwParen kwPOINT 1 1) (wktLineStringRender pairs) = none := by
  apply scanMatch_none_of_no_head 'P' ['O', 'I', 'N', 'T'] 1 1
  intro c hc
  simp only [wktLineStringRender, kwLINESTRING, List.mem_append, List.mem_cons,
    List.not_mem_nil, or_false] at hc
  casesm* _ ∨ _
  all_goals first
    | exact pairsRender_not_P h c (by assumption)
    | (subst c; decide)

theorem scan_point_polyRender {pairs : List (List Char × List Char)}
    (h : pairsOk pairs = true) :
    scanMatch (tryKwParen kwPOINT 1 1) (wktPolygonRender pairs) = none := by
  apply scanMatch_none_cons
  · apply tryKwParen_strip_none
    simp [kwPOINT, kwPOLYGON, stripKwCI, (by decide : ciEq 'P' 'P' = true),
      (by decide : ciEq 'O' 'O' = true), (by decide : ciEq 'L' 'I' = false)]
  · apply scanMatch_none_of_no_head 'P' ['O', 'I', 'N', 'T'] 1 1
    intro c hc
    simp only [List.append_eq, List.mem_append, List.mem_cons, List.not_mem_nil,
      or_false] at hc
    casesm* _ ∨ _
    all_goals first
      | exact pairsRender_not_P h c (by assumption)
      | (subst c; decide)

theorem scan_ls_polyRender {pairs : List (List Char × List Char)}
    (h : pairsOk pairs = true) :
    scanMatch (tryKwParen kwLINESTRING 1 1) (wktPolygonRender pairs) = none := by
  apply scanMatch_none_cons
  · apply tryKwParen_strip_none
    simp [kwLINESTRING, stripKwCI, (by decide : ciEq 'P' 'L' = false)]
  apply scanMatch_none_cons
  · apply tryKwParen_strip_none
    simp [kwLINESTRING, stripKwCI, (by decide : ciEq 'O' 'L' = false)]
  apply scanMatch_none_cons
  · apply tryKwParen_strip_none
    simp [kwLINESTRING, stripKwCI, (by decide : ciEq 'L' 'L' = true),
      (by decide : ciEq 'Y' 'I' = false)]
  apply scanMatch_none_of_no_head 'L' ['I', 'N', 'E', 'S', 'T', 'R', 'I', 'N', 'G'] 1 1
  intro c hc
  simp only [List.append_eq, List.mem_append, List.mem_cons, List.not_mem_nil,
    or_false] at hc
  casesm* _ ∨ _
  all_goals first
    | exact pairsRender_not_L h c (by assumption)
    | (subst c; decide)

theorem scan_point_mpRender {pairs : List (List Char × List Char)}
    (h : pairsOk pairs = true) :
    scanMatch (tryKwParen kwPOINT 1 1) (wktMultiPolygonRender pairs) = none := by
  apply scanMatch_none_cons
  · apply tryKwParen_strip_none
    simp [kwPOINT, stripKwCI, (by decide : ciEq 'M' 'P' = false)]
  apply scanMatch_none_cons
  · apply tryKwParen_strip_none
    simp [kwPOINT, stripKwCI, (by decide : ciEq 'U' 'P' = false)]
  apply scanMatch_none_cons
  · apply tryKwParen_strip_none
    simp [kwPOINT, stripKwCI, (by decide : ciEq 'L' 'P' = false)]
  apply scanMatch_none_cons
  · apply tryKwParen_strip_none
    simp [kwPOINT, stripKwCI, (by decide : ciEq 'T' 'P' = false)]
  apply scanMatch_none_cons
  · apply tryKwParen_strip_none
    simp [kwPOINT, stripKwCI, (by decide : ciEq 'I' 'P' = false)]
  apply scanMatch_none_cons
  · apply tryKwParen_strip_none
    simp [kwPOINT, stripKwCI, (by decide : ciEq 'P' 'P' = true),
      (by decide : ciEq 'O' 'O' = true), (by decide : ciEq 'L' 'I' = false)]
  apply scanMatch_none_of_no_head 'P' ['O', 'I', 'N', 'T'] 1 1
  intro c hc
  simp only [List.append_eq, List.mem_append, List.mem_cons, List.not_mem_nil,
    or_false] at hc
  casesm* _ ∨ _
  all_goals first
    | exact pairsRender_not_P h c (by assumption)
    | (subst c; decide)

theorem scan_ls_mpRender {pairs : List (List Char × List Char)}
    (h : pairsOk pairs = true) :
    scanMatch (tryKwParen kwLINESTRING 1 1) (wktMultiPolygonRender pairs) = none := by
  apply scanMatch_none_cons
  · apply tryKwParen_strip_none
    simp [kwLINESTRING, stripKwCI, (by decide : ciEq 'M' 'L' = false)]
  apply scanMatch_none_cons
  · apply tryKwParen_strip_none
    simp [kwLINESTRING, stripKwCI, (by decide : ciEq 'U' 'L' = false)]
  apply scanMatch_none_cons
  · apply tryKwParen_strip_none
    simp [kwLINESTRING, stripKwCI, (by decide : ciEq 'L' 'L' = true),
      (by decide : ciEq 'T' 'I' = false)]
  apply scanMatch_none_cons
  · apply tryKwParen_strip_none
    simp [kwLINESTRING, stripKwCI, (by decide : ciEq 'T' 'L' = false)]
  apply scanMatch_none_cons
  · apply tryKwParen_strip_none
    simp [kwLINESTRING, stripKwCI, (by decide : ciEq 'I' 'L' = false)]
  apply scanMatch_none_cons
  · apply tryKwParen_strip_none
    simp [kwLINESTRING, stripKwCI, (by decide : ciEq 'P' 'L' = false)]
  apply scanMatch_none_cons
  · apply tryKwParen_strip_none
    simp [kwLINESTRING, stripKwCI, (by decide : ciEq 'O' 'L' = false)]
  apply scanMatch_none_cons
  · apply tryKwParen_strip_none
    simp [kwLINESTRING, stripKwCI, (by decide : ciEq 'L' 'L' = true),
      (by decide : ciEq 'Y' 'I' = false)]
  apply scanMatch_none_of_no_head 'L' ['I', 'N', 'E', 'S', 'T', 'R', 'I', 'N', 'G'] 1 1
  intro c hc
  simp only [List.append_eq, List.mem_append, List.mem_cons, List.not_mem_nil,
    or_false] at hc
  casesm* _ ∨ _
  all_goals first
    | exact pairsRender_not_L h c (by assumption)
    | (subst c; decide)

theorem scan_poly_mpRender {pairs : List (List Char × List Char)}
    (h : pairsOk pairs = true) :
    scanMatch (tryKwParen kwPOLYGON 2 2) (wktMultiPolygonRender pairs) =
      some ('(' :: wktPairsRender pairs) := by
  have hcap : ∀ c ∈ '(' :: wktPairsRender pairs, c ≠ ')' := by
    intro c hc
    rcases List.mem_cons.mp hc with rfl | hc2
    · decide
    · exact pairsRender_no_close h c hc2
  have hhit := tryKwParen_hit kwPOLYGON ('(' :: wktPairsRender pairs) [')'] 1 1
    (by simp) hcap
  have hform : wktMultiPolygonRender pairs = 'M' :: 'U' :: 'L' :: 'T' :: 'I' ::
      (kwPOLYGON ++ (List.replicate 2 '(' ++ (('(' :: wktPairsRender pairs) ++
        (List.replicate 2 ')' ++ [')'])))) := by
    simp [wktMultiPolygonRender, kwMULTIPOLYGON, kwPOLYGON, List.replicate]
  rw [hform]
  apply scanMatch_some_cons
  · apply tryKwParen_strip_none
    simp [kwPOLYGON, stripKwCI, (by decide : ciEq 'M' 'P' = false)]
  apply scanMatch_some_cons
  · apply tryKwParen_strip_none
    simp [kwPOLYGON, stripKwCI, (by decide : ciEq 'U' 'P' = false)]
  apply scanMatch_some_cons
  · apply tryKwParen_strip_none
    simp [kwPOLYGON, stripKwCI, (by decide : ciEq 'L' 'P' = false)]
  apply scanMatch_some_cons
  · apply tryKwParen_strip_none
    simp [kwPOLYGON, stripKwCI, (by decide : ciEq 'T' 'P' = false)]
  apply scanMatch_some_cons
  · apply tryKwParen_strip_none
    simp [kwPOLYGON, stripKwCI, (by decide : ciEq 'I' 'P' = false)]
  exact scanMatch_eq_some _ _ _ hhit


theorem pairsOk_tail {p : List Char × List Char} {ps : List (List Char × List Char)}
    (h : pairsOk (p :: ps) = true) : pairsOk ps = true := by
  simp only [pairsOk, List.all_cons, Bool.and_eq_true] at h ⊢
  exact h.2

theorem splitChar_pairsRender {pairs : List (List Char × List Char)}
    (h : pairsOk pairs = true) (hne : pairs ≠ []) :
    splitChar ',' (wktPairsRender pairs) = pairs.map fun p => p.1 ++ ' ' :: p.2 := by
  unfold wktPairsRender
  apply splitChar_join
  · simp [hne]
  · intro p hp c hc
    obtain ⟨q, hq, rfl⟩ := List.mem_map.mp hp
    exact pairsRender_no_comma h q hq c hc

theorem parseWKTL_pointRender {tx ty : List Char} (hx : tokOk tx = true)
    (hy : tokOk ty = true) :
    parseWKTL (wktPointRender tx ty) =
      some (.point [.num (parseNumLit tx), .num (parseNumLit ty)]) := by
  unfold parseWKTL
  simp only [scan_point_pointRender hx hy]
  rw [splitChar_append ' ' tx ty (tok_not_space hx),
    splitChar_no ' ' ty (tok_not_space hy)]
  simp [jsNumber_tok hx, jsNumber_tok hy]

theorem parseWKTL_lsRender {pairs : List (List Char × List Char)}
    (h : pairsOk pairs = true) (hne : pairs ≠ []) :
    parseWKTL (wktLineStringRender pairs) =
      some (.lineString (pairs.map fun p =>
        [.num (parseNumLit p.1), .num (parseNumLit p.2)])) := by
  have hmap : pairs.map (parseCoordPair ∘ fun p => p.1 ++ ' ' :: p.2) =
      pairs.map fun p => [RVal.num (parseNumLit p.1), RVal.num (parseNumLit p.2)] := by
    apply List.map_congr_left
    intro p hp
    obtain ⟨h1, h2⟩ := pairsOk_mem h hp
    exact parseCoordPair_pair h1 h2
  unfold parseWKTL
  simp only [scan_point_lsRender h, scan_ls_lsRender h hne,
    splitChar_pairsRender h hne, List.map_map, hmap]

theorem parseWKTL_polyRender {pairs : List (List Char × List Char)}
    (h : pairsOk pairs = true) (hne : pairs ≠ []) :
    parseWKTL (wktPolygonRender pairs) =
      some (.polygon [pairs.map fun p =>
        [.num (parseNumLit p.1), .num (parseNumLit p.2)]]) := by
  have hmap : pairs.map (parseCoordPair ∘ fun p => p.1 ++ ' ' :: p.2) =
      pairs.map fun p => [RVal.num (parseNumLit p.1), RVal.num (parseNumLit p.2)] := by
    apply List.map_congr_left
    intro p hp
    obtain ⟨h1, h2⟩ := pairsOk_mem h hp
    exact parseCoordPair_pair h1 h2
  unfold parseWKTL
  simp only [scan_point_polyRender h, scan_ls_polyRender h,
    scan_poly_polyRender h hne, splitChar_pairsRender h hne, List.map_map, hmap]

theorem parseWKTL_mpRender {a b : List Char} {rest : List (List Char × List Char)}
    (h : pairsOk ((a, b) :: rest) = true) :
    parseWKTL (wktMultiPolygonRender ((a, b) :: rest)) =
      some (.polygon [[.num none, .num (parseNumLit b)] :: rest.map fun p =>
        [.num (parseNumLit p.1), .num (parseNumLit p.2)]]) := by
  obtain ⟨ha, hb⟩ := pairsOk_mem h (List.mem_cons_self (a, b) rest)
  have hsplit : splitChar ',' ('(' :: wktPairsRender ((a, b) :: rest)) =
      ('(' :: (a ++ ' ' :: b)) :: rest.map (fun p => p.1 ++ ' ' :: p.2) := by
    cases rest with
    | nil =>
      rw [show wktPairsRender [(a, b)] = a ++ ' ' :: b from rfl]
      rw [splitChar_no ',' ('(' :: (a ++ ' ' :: b)) (by
        intro c hc
        rcases List.mem_cons.mp hc with rfl | hc2
        · decide
        · exact pairsRender_no_comma h (a, b) (List.mem_cons_self _ _) c hc2)]
      simp
    | cons q qs =>
      rw [show ('(' :: wktPairsRender ((a, b) :: q :: qs)) =
        ('(' :: (a ++ ' ' :: b)) ++ ',' :: wktPairsRender (q :: qs) from by
          simp [wktPairsRender, joinChar]]
      rw [splitChar_append ',' ('(' :: (a ++ ' ' :: b)) _ (by
        intro c hc
        rcases List.mem_cons.mp hc with rfl | hc2
        · decide
        · exact pairsRender_no_comma h (a, b) (List.mem_cons_self _ _) c hc2)]
      rw [splitChar_pairsRender (pairsOk_tail h) (by simp)]
  have hmap : rest.map (parseCoordPair ∘ fun p => p.1 ++ ' ' :: p.2) =
      rest.map fun p => [RVal.num (parseNumLit p.1), RVal.num (parseNumLit p.2)] := by
    apply List.map_congr_left
    intro p hp
    obtain ⟨h1, h2⟩ := pairsOk_mem (pairsOk_tail h) hp
    exact parseCoordPair_pair h1 h2
  unfold parseWKTL
  simp only [scan_point_mpRender h, scan_ls_mpRender h, scan_poly_mpRender h, hsplit]
  simp only [List.map_cons, List.map_map, parseCoordPair_corrupt ha hb, hmap]

/-! # Theorems -/

/-- C7 (amended): the cached-`db` guard returns the current instance
with no state change - in particular, after a successful
initialization every call returns the initialized engine and the
registration sequence is not re-run - and a call that overlaps the
setup while `db` is still null joins the in-flight promise.  Along the
overlapping trace from a fresh module state the setup is started
exactly once, its resolution hands every joiner the engine that `db`
holds at completion, and later calls return that engine unchanged.
The mid-setup window opened by the line-36 assignment, in which the
cached-`db` guard hands an overlapping caller the not-yet-initialized
instance instead of the in-flight promise, is the subject of
`initializeDuckDB_midsetup_race_counterexample`. -/
theorem initializeDuckDB_idempotent :
    (∀ (s : InitState) (e : Engine), s.db = some e →
      initializeDuckDB s = (.cachedDb e, s)) ∧
    (∀ s : InitState, s.db = none → s.inflight = true →
      initializeDuckDB s = (.joinedInflight, s)) ∧
    (∀ e : Engine,
      (initializeDuckDB InitState.initial).1 = .startedSetup ∧
      (initializeDuckDB (initializeDuckDB InitState.initial).2).1 = .joinedInflight ∧
      (resolveInit (assignDb e
        (initializeDuckDB (initializeDuckDB InitState.initial).2).2)).1 = some e ∧
      (resolveInit (assignDb e
        (initializeDuckDB (initializeDuckDB InitState.initial).2).2)).2.starts = 1 ∧
      (resolveInit (assignDb e
        (initializeDuckDB (initializeDuckDB InitState.initial).2).2)).2.setupDone = true ∧
      initializeDuckDB (resolveInit (assignDb e
          (initializeDuckDB (initializeDuckDB InitState.initial).2).2)).2 =
        (.cachedDb e, (resolveInit (assignDb e
          (initializeDuckDB (initializeDuckDB InitState.initial).2).2)).2)) := by
  refine ⟨?_, ?_, ?_⟩
  · intro s e h
    simp [initializeDuckDB, h]
  · intro s h1 h2
    simp [initializeDuckDB, h1, h2]
  · intro e
    exact ⟨rfl, rfl, rfl, rfl, rfl, rfl⟩

/-- Witness for `initializeDuckDB_idempotent`: the cached branch at a
concrete completed state and the join branch at a concrete early
in-flight state. -/
theorem initializeDuckDB_idempotent_witness :
    initializeDuckDB { db := some 5, inflight := true, setupDone := true, starts := 1 } =
      (.cachedDb 5,
       { db := some 5, inflight := true, setupDone := true, starts := 1 }) ∧
    initializeDuckDB { db := none, inflight := true, setupDone := false, starts := 1 } =
      (.joinedInflight,
       { db := none, inflight := true, setupDone := false, starts := 1 }) :=
  ⟨initializeDuckDB_idempotent.1
      { db := some 5, inflight := true, setupDone := true, starts := 1 } 5 rfl,
   initializeDuckDB_idempotent.2.1
      { db := none, inflight := true, setupDone := false, starts := 1 } rfl rfl⟩

/-- C7 counterexample: the mid-setup race.  From a fresh state one
call starts the setup; after the line-36 `db = new AsyncDuckDB(...)`
assignment but before the registration sequence completes
(`setupDone = false`), an overlapping call hits the cached-`db` guard
and receives the not-yet-initialized instance immediately - it does
not join the in-flight promise - and if the setup then fails, the
module discards `db` while that caller still holds the handle.  This
refutes the claim's "two overlapping calls converge on the same single
in-flight setup and both callers receive the same working engine
handle". -/
theorem initializeDuckDB_midsetup_race_counterexample :
    (initializeDuckDB InitState.initial).1 = .startedSetup ∧
    (assignDb 7 (initializeDuckDB InitState.initial).2).setupDone = false ∧
    initializeDuckDB (assignDb 7 (initializeDuckDB InitState.initial).2) =
      (.cachedDb 7, assignDb 7 (initializeDuckDB InitState.initial).2) ∧
    ¬ (initializeDuckDB (assignDb 7 (initializeDuckDB InitState.initial).2)).1 =
        .joinedInflight ∧
    (failInit (assignDb 7 (initializeDuckDB InitState.initial).2)).db = none := by
  exact ⟨rfl, rfl, rfl, by decide, rfl⟩

/-- C9: any engine-level fault propagates out of `queryDuckDB` as the
typed error carrying the underlying engine message; the result depends
only on the first (and only) engine attempt, so there is no automatic
retry; a zero-row engine result comes back as `.ok []`, not as an
error. -/
theorem queryDuckDB_propagates_errors :
    (∀ (engine : Nat → Except QueryExecutionError (List RawRow)) (sql : String)
        (msg : QueryExecutionError),
      engine 0 = .error msg → queryDuckDB engine sql = .error msg) ∧
    (∀ (e1 e2 : Nat → Except QueryExecutionError (List RawRow)) (sql : String),
      e1 0 = e2 0 → queryDuckDB e1 sql = queryDuckDB e2 sql) ∧
    (∀ (engine : Nat → Except QueryExecutionError (List RawRow)) (sql : String),
      engine 0 = .ok [] → queryDuckDB engine sql = .ok []) := by
  refine ⟨?_, ?_, ?_⟩
  · intro engine sql msg h
    simp [queryDuckDB, h]
  · intro e1 e2 sql h
    simp [queryDuckDB, h]
  · intro engine sql h
    simp [queryDuckDB, h, serializeResult]

/-- Witness for `queryDuckDB_propagates_errors` at concrete engines:
a faulting engine, two engines agreeing on attempt 0, and an
empty-result engine. -/
theorem queryDuckDB_propagates_errors_witness :
    queryDuckDB (fun _ => .error "Parser Error: syntax error at or near") "BAD SQL" =
      .error "Parser Error: syntax error at or near" ∧
    queryDuckDB (fun _ => .ok []) "SELECT 1" =
      queryDuckDB (fun n => if n = 0 then .ok [] else .error "retried") "SELECT 1" ∧
    queryDuckDB (fun _ => .ok []) "SELECT 1" = .ok [] := by
  refine ⟨?_, ?_, ?_⟩
  · exact queryDuckDB_propagates_errors.1 _ "BAD SQL" _ rfl
  · exact queryDuckDB_propagates_errors.2.1 _ _ "SELECT 1" rfl
  · exact queryDuckDB_propagates_errors.2.2 _ "SELECT 1" rfl

/-- C6: applying a query result with a non-empty feature list appends
exactly one new layer at the end of the history (the existing layers
stay as a prefix, so nothing is replaced), the new layer's data is the
whole given feature collection, and the viewport is then fitted to the
features; an empty feature list leaves the layer-sequence length and
the viewport unchanged. -/
theorem handleQueryGenerated_appends :
    ∀ (fitBounds : Bounds → Option ℚ × Option ℚ × Option ℚ) (now : Nat)
      (label : Option String) (st : MapState) (geoJSON : FeatureCollection),
      ((handleQueryGenerated fitBounds now label st geoJSON).queryHistory =
        if geoJSON.features.isEmpty then st.queryHistory
        else st.queryHistory ++
          [{ id := toString now
             name := label.getD ("Query " ++ toString (st.queryHistory.length + 1))
             data := geoJSON, timestamp := now, visible := true }]) ∧
      ((handleQueryGenerated fitBounds now label st geoJSON).queryHistory.length =
        st.queryHistory.length + (if geoJSON.features.isEmpty then 0 else 1)) ∧
      ((handleQueryGenerated fitBounds now label st geoJSON).viewState =
        if geoJSON.features.isEmpty then st.viewState
        else fitViewportToFeatures fitBounds geoJSON.features st.viewState) := by
  intro fitBounds now label st geoJSON
  by_cases h : geoJSON.features.isEmpty
  · have hlen : ¬ geoJSON.features.length > 0 := by
      simp [List.isEmpty_iff] at h
      simp [h]
    refine ⟨?_, ?_, ?_⟩ <;> simp [handleQueryGenerated, hlen, h]
  · have hlen : geoJSON.features.length > 0 := by
      simp [List.isEmpty_iff] at h
      exact List.length_pos.mpr h
    refine ⟨?_, ?_, ?_⟩ <;> simp [handleQueryGenerated, hlen, h]

/-! ### Lemmas for the layer-color claim -/

theorem string_append_inj {p a b : String} (h : p ++ a = p ++ b) : a = b := by
  have hd : (p ++ a).data = (p ++ b).data := by rw [h]
  simp only [String.data_append] at hd
  exact String.ext (List.append_cancel_left hd)

/-- The find-by-id over the render-layer loop locates the layer at its
full-history index: the accumulator `k` is the index of the list head. -/
theorem findAux_locates :
    ∀ (hist : List QueryResult) (k i : Nat) (hi : i < hist.length),
      (hist.map QueryResult.id).Nodup →
      (hist.get ⟨i, hi⟩).visible = true →
      (renderLayersAux k hist).find?
          (fun rl => rl.id = "query-" ++ (hist.get ⟨i, hi⟩).id) =
        some (mkRenderLayer (k + i) (hist.get ⟨i, hi⟩)) := by
  intro hist
  induction hist with
  | nil => intro k i hi; simp at hi
  | cons q t ih =>
    intro k i hi hnd hv
    have hnd' : (t.map QueryResult.id).Nodup := by
      simp only [List.map_cons, List.nodup_cons] at hnd
      exact hnd.2
    have hqn : q.id ∉ t.map QueryResult.id := by
      simp only [List.map_cons, List.nodup_cons] at hnd
      exact hnd.1
    match i with
    | 0 =>
      simp only [List.get] at hv ⊢
      simp [renderLayersAux, hv, List.find?, mkRenderLayer]
    | i + 1 =>
      have hi' : i < t.length := Nat.lt_of_succ_lt_succ hi
      simp only [List.get] at hv ⊢
      have hne : q.id ≠ (t.get ⟨i, hi'⟩).id := by
        intro hcontra
        exact hqn (hcontra ▸ List.mem_map_of_mem QueryResult.id (t.get_mem i hi'))
      have hne2 : ¬ ("query-" ++ q.id = "query-" ++ (t.get ⟨i, hi'⟩).id) := by
        intro hcontra
        exact hne (string_append_inj hcontra)
      have htail := ih (k + 1) i hi' hnd' hv
      rw [show k + 1 + i = k + (i + 1) by omega] at htail
      by_cases hq : q.visible
      · have hhead : renderLayersAux k (q :: t) =
            mkRenderLayer k q :: renderLayersAux (k + 1) t := by
          simp [renderLayersAux, hq]
        rw [hhead, List.find?_cons_of_neg _ (by simpa [mkRenderLayer] using hne2)]
        exact htail
      · have hhead : renderLayersAux k (q :: t) = renderLayersAux (k + 1) t := by
          simp [renderLayersAux, hq]
        rw [hhead]
        exact htail

/-- With distinct layer ids, removing the layer at position `j` by id
is the same as erasing position `j`. -/
theorem filter_ne_id_eq_eraseIdx :
    ∀ (hist : List QueryResult) (j : Nat) (hj : j < hist.length),
      (hist.map QueryResult.id).Nodup →
      (hist.filter fun query => query.id ≠ (hist.get ⟨j, hj⟩).id) = hist.eraseIdx j := by
  intro hist
  induction hist with
  | nil => intro j hj; simp at hj
  | cons q t ih =>
    intro j hj hnd
    have hnd' : (t.map QueryResult.id).Nodup := by
      simp only [List.map_cons, List.nodup_cons] at hnd
      exact hnd.2
    have hqn : q.id ∉ t.map QueryResult.id := by
      simp only [List.map_cons, List.nodup_cons] at hnd
      exact hnd.1
    match j with
    | 0 =>
      simp only [List.get, List.eraseIdx]
      rw [List.filter_cons_of_neg (by simp)]
      apply List.filter_eq_self.mpr
      intro a ha
      simp only [ne_eq, decide_eq_true_eq]
      intro hcontra
      exact hqn (hcontra ▸ List.mem_map_of_mem QueryResult.id ha)
    | j + 1 =>
      have hj' : j < t.length := Nat.lt_of_succ_lt_succ hj
      have hne : q.id ≠ (t.get ⟨j, hj'⟩).id := by
        intro hcontra
        exact hqn (hcontra ▸ List.mem_map_of_mem QueryResult.id (t.get_mem j hj'))
      simp only [List.get, List.eraseIdx]
      rw [List.filter_cons_of_pos (by simpa using hne)]
      rw [ih j hj' hnd']

/-- C10: a visible layer's render color is a function of its position
in the FULL layer sequence (hidden layers included): its fill color is
the palette entry at `index % 7` and its outline is the fill scaled by
0.7 per channel; toggling any other layer's visibility leaves its
render layer (hence its color) unchanged; removing an earlier layer
shifts it to the palette entry of its new position `index - 1`. -/
theorem renderLayer_color_by_position :
    ∀ (hist : List QueryResult) (i : Nat) (hi : i < hist.length),
      (hist.map QueryResult.id).Nodup →
      (hist.get ⟨i, hi⟩).visible = true →
      ((mkRenderLayer i (hist.get ⟨i, hi⟩)).fillColor =
          (layerColors.get? (i % layerColors.length)).getD [] ∧
        (mkRenderLayer i (hist.get ⟨i, hi⟩)).lineColor =
          (((layerColors.get? (i % layerColors.length)).getD []).take 3).map
            (fun c => c * (7/10 : ℚ))) ∧
      findRenderLayer hist (hist.get ⟨i, hi⟩).id =
        some (mkRenderLayer i (hist.get ⟨i, hi⟩)) ∧
      (∀ tid : String, tid ≠ (hist.get ⟨i, hi⟩).id →
        findRenderLayer (toggleLayerVisibility tid hist) (hist.get ⟨i, hi⟩).id =
          some (mkRenderLayer i (hist.get ⟨i, hi⟩))) ∧
      (∀ (j : Nat) (hj : j < hist.length), j < i →
        findRenderLayer (removeLayer (hist.get ⟨j, hj⟩).id hist) (hist.get ⟨i, hi⟩).id =
          some (mkRenderLayer (i - 1) (hist.get ⟨i, hi⟩))) := by
  intro hist i hi hnd hv
  refine ⟨⟨rfl, rfl⟩, ?_, ?_, ?_⟩
  · have := findAux_locates hist 0 i hi hnd hv
    simpa [findRenderLayer, renderLayers] using this
  · intro tid htid
    set f : QueryResult → QueryResult := fun query =>
      if query.id = tid then { query with visible := !query.visible } else query with hf
    have hlen : (toggleLayerVisibility tid hist).length = hist.length := by
      simp [toggleLayerVisibility, hf]
    have hget : (toggleLayerVisibility tid hist).get ⟨i, by omega⟩ = hist.get ⟨i, hi⟩ := by
      simp only [toggleLayerVisibility, hf, List.get_eq_getElem, List.getElem_map]
      rw [if_neg]
      intro hcontra
      exact htid hcontra.symm
    have hids : (toggleLayerVisibility tid hist).map QueryResult.id =
        hist.map QueryResult.id := by
      simp only [toggleLayerVisibility, hf, List.map_map]
      apply List.map_congr_left
      intro a _
      by_cases h : a.id = tid <;> simp [h]
    have := findAux_locates (toggleLayerVisibility tid hist) 0 i (by omega)
      (hids ▸ hnd) (by rw [hget]; exact hv)
    rw [hget] at this
    simpa [findRenderLayer, renderLayers] using this
  · intro j hj hji
    obtain ⟨i', rfl⟩ : ∃ k, i = k + 1 := ⟨i - 1, by omega⟩
    rw [show removeLayer (hist.get ⟨j, hj⟩).id hist =
      hist.filter (fun query => query.id ≠ (hist.get ⟨j, hj⟩).id) from rfl]
    rw [filter_ne_id_eq_eraseIdx hist j hj hnd]
    have hlen : (hist.eraseIdx j).length = hist.length - 1 := by
      rw [List.length_eraseIdx]
      simp [hj]
    have hi1 : i' < (hist.eraseIdx j).length := by omega
    have hget : (hist.eraseIdx j).get ⟨i', hi1⟩ = hist.get ⟨i' + 1, hi⟩ := by
      rw [List.get_eq_getElem, List.get_eq_getElem]
      exact List.getElem_eraseIdx_of_ge hist j i' hi1 (by omega)
    have hids : ((hist.eraseIdx j).map QueryResult.id).Nodup := by
      exact List.Nodup.sublist (List.Sublist.map QueryResult.id
        (List.eraseIdx_sublist hist j)) hnd
    have hrec := findAux_locates (hist.eraseIdx j) 0 i' hi1 hids
      (by rw [hget]; exact hv)
    rw [hget] at hrec
    simpa [findRenderLayer, renderLayers] using hrec

/-- Witness for `renderLayer_color_by_position`: a concrete two-layer
history; the second layer keeps its color when the first is toggled
and shifts to palette slot 0 when the first is removed. -/
theorem renderLayer_color_by_position_witness :
    findRenderLayer
        [{ id := "100", name := "a", data := ⟨[]⟩, timestamp := 100, visible := true },
         { id := "200", name := "b", data := ⟨[]⟩, timestamp := 200, visible := true }] "200" =
      some (mkRenderLayer 1
        { id := "200", name := "b", data := ⟨[]⟩, timestamp := 200, visible := true }) ∧
    findRenderLayer
        (toggleLayerVisibility "100"
          [{ id := "100", name := "a", data := ⟨[]⟩, timestamp := 100, visible := true },
           { id := "200", name := "b", data := ⟨[]⟩, timestamp := 200, visible := true }]) "200" =
      some (mkRenderLayer 1
        { id := "200", name := "b", data := ⟨[]⟩, timestamp := 200, visible := true }) ∧
    findRenderLayer
        (removeLayer "100"
          [{ id := "100", name := "a", data := ⟨[]⟩, timestamp := 100, visible := true },
           { id := "200", name := "b", data := ⟨[]⟩, timestamp := 200, visible := true }]) "200" =
      some (mkRenderLayer 0
        { id := "200", name := "b", data := ⟨[]⟩, timestamp := 200, visible := true }) := by
  have h := renderLayer_color_by_position
    [{ id := "100", name := "a", data := ⟨[]⟩, timestamp := 100, visible := true },
     { id := "200", name := "b", data := ⟨[]⟩, timestamp := 200, visible := true }]
    1 (by simp) (by simp) rfl
  refine ⟨h.2.1, ?_, ?_⟩
  · exact h.2.2.1 "100" (by simp)
  · exact h.2.2.2 0 (by simp) (by omega)


/-- C2 counterexample: on the well-formed WKT
`MULTIPOLYGON(((1 2,3 4)))` the earlier POLYGON pattern matches first
(at offset 5) and swallows the extra `(` into its capture, so the
first numeric token `1` comes out as NaN instead of the numeric value
of the token: the coordinates are NOT the numeric tokens of the
input. -/
theorem parseWKT_multipolygon_counterexample :
    parseWKT "MULTIPOLYGON(((1 2,3 4)))" =
      some (.polygon [[[.num none, .num (some 2)], [.num (some 3), .num (some 4)]]]) ∧
    (RVal.num (none : Option ℚ)) ≠ (RVal.num (some 1)) := by
  constructor
  · with_unfolding_all rfl
  · simp

/-- C2 (amended): on canonical well-formed WKT built from numeric
tokens, the WKT-parsing step of `convertToGeoJSON` returns a geometry
of the corresponding type whose coordinate values are the numeric
tokens in count and order for POINT, LINESTRING and POLYGON; a
well-formed MULTIPOLYGON, however, is captured by the earlier POLYGON
pattern (checked first), yielding a `Polygon` whose FIRST coordinate
is NaN (the unmatched `(` is glued onto the first token) while all
remaining coordinates equal the remaining numeric tokens in order. -/
theorem parseWKT_recognized_shapes :
    (∀ tx ty : List Char, tokOk tx = true → tokOk ty = true →
      parseWKTL (wktPointRender tx ty) =
        some (.point [.num (parseNumLit tx), .num (parseNumLit ty)])) ∧
    (∀ pairs : List (List Char × List Char), pairsOk pairs = true → pairs ≠ [] →
      parseWKTL (wktLineStringRender pairs) =
        some (.lineString (pairs.map fun p =>
          [.num (parseNumLit p.1), .num (parseNumLit p.2)]))) ∧
    (∀ pairs : List (List Char × List Char), pairsOk pairs = true → pairs ≠ [] →
      parseWKTL (wktPolygonRender pairs) =
        some (.polygon [pairs.map fun p =>
          [.num (parseNumLit p.1), .num (parseNumLit p.2)]])) ∧
    (∀ (a b : List Char) (rest : List (List Char × List Char)),
      pairsOk ((a, b) :: rest) = true →
      parseWKTL (wktMultiPolygonRender ((a, b) :: rest)) =
        some (.polygon [[.num none, .num (parseNumLit b)] :: rest.map fun p =>
          [.num (parseNumLit p.1), .num (parseNumLit p.2)]])) :=
  ⟨fun _ _ hx hy => parseWKTL_pointRender hx hy,
   fun _ h hne => parseWKTL_lsRender h hne,
   fun _ h hne => parseWKTL_polyRender h hne,
   fun _ _ _ h => parseWKTL_mpRender h⟩

/-- Witness for `parseWKT_recognized_shapes` at concrete tokens. -/
theorem parseWKT_recognized_shapes_witness :
    parseWKTL (wktPointRender ['1'] ['2']) =
      some (.point [.num (parseNumLit ['1']), .num (parseNumLit ['2'])]) ∧
    parseWKTL (wktLineStringRender [(['1'], ['2']), (['3'], ['4'])]) =
      some (.lineString [[.num (parseNumLit ['1']), .num (parseNumLit ['2'])],
        [.num (parseNumLit ['3']), .num (parseNumLit ['4'])]]) ∧
    parseWKTL (wktPolygonRender [(['1'], ['2']), (['3'], ['4'])]) =
      some (.polygon [[[.num (parseNumLit ['1']), .num (parseNumLit ['2'])],
        [.num (parseNumLit ['3']), .num (parseNumLit ['4'])]]]) ∧
    parseWKTL (wktMultiPolygonRender [(['1'], ['2']), (['3'], ['4'])]) =
      some (.polygon [[[.num none, .num (parseNumLit ['2'])],
        [.num (parseNumLit ['3']), .num (parseNumLit ['4'])]]]) := by
  refine ⟨parseWKT_recognized_shapes.1 ['1'] ['2'] (by decide) (by decide), ?_, ?_, ?_⟩
  · exact parseWKT_recognized_shapes.2.1 [(['1'], ['2']), (['3'], ['4'])]
      (by decide) (by decide)
  · exact parseWKT_recognized_shapes.2.2.1 [(['1'], ['2']), (['3'], ['4'])]
      (by decide) (by decide)
  · exact parseWKT_recognized_shapes.2.2.2 ['1'] ['2'] [(['3'], ['4'])] (by decide)

/-- Under `wktFieldOk`, the per-row geometry is total: the parsed WKT
when there is one, otherwise exactly the spec's fallback point. -/
theorem rowGeometry_eq (row : Row) (h : wktFieldOk row = true) :
    rowGeometry row = .ok (some (match parsedWkt row with
      | some g => g
      | none => specFallbackPoint row)) := by
  unfold rowGeometry rowWktGeometry parsedWkt specFallbackPoint
  cases hget : rowGet row "geometry_wkt" with
  | none =>
    rw [show truthyV none = false from rfl]
    simp <;> split_ifs <;> rfl
  | some v =>
    cases v with
    | str w =>
      by_cases hw : w = ""
      · subst hw
        rw [show truthyV (some (RVal.str "")) = false from rfl]
        simp <;> split_ifs <;> rfl
    

      · rw [show truthyV (some (RVal.str w)) = true from by simp [truthyV, hw]]
        simp only [if_pos, if_true]
        cases hparse : parseWKT w with
        | some g => simp [hw, hparse]
        | none => simp [hw, hparse] <;> split_ifs <;> rfl
    | num q =>
      unfold wktFieldOk at h
      rw [hget] at h
      cases q with
      | none => rw [show truthyV (some (RVal.num none)) = false from rfl]; simp <;> split_ifs <;> rfl
      | some x =>
        simp only [Bool.or_eq_true, Bool.not_eq_eq_eq_not, Bool.not_true] at h
        rcases h with h | h
        · rw [h]; simp <;> split_ifs <;> rfl
        · simp at h
    | boolV b =>
      unfold wktFieldOk at h
      rw [hget] at h
      cases b with
      | false => rw [show truthyV (some (RVal.boolV false)) = false from rfl]; simp <;> split_ifs <;> rfl
      | true =>
        simp only [Bool.or_eq_true, Bool.not_eq_eq_eq_not, Bool.not_true] at h
        rcases h with h | h
        · rw [h]; simp <;> split_ifs <;> rfl
        · simp at h
    | nullV => rw [show truthyV (some RVal.nullV) = false from rfl]; simp <;> split_ifs <;> rfl
    | nested fs =>
      unfold wktFieldOk at h
      rw [hget] at h
      simp only [Bool.or_eq_true, Bool.not_eq_eq_eq_not, Bool.not_true] at h
      rcases h with h | h
      · simp [truthyV] at h
      · simp at h

/-- C4: `convertToGeoJSON` never produces a null geometry and never
drops a row: under the SQL contract that a present `geometry_wkt`
field is a string (so `.match` cannot throw), the conversion succeeds,
produces exactly one feature per input row, every feature's geometry
is non-null, and a row without a parseable WKT gets exactly the
spec-prescribed fallback point (`lon`/`lat`, else
`longitude`/`latitude`, else the `[0, 0]` origin). -/
theorem convertToGeoJSON_never_drops_rows (rows : List Row)
    (hok : rows.all wktFieldOk = true) :
    ∃ fc : FeatureCollection, convertToGeoJSON rows = .ok fc ∧
      fc.features.length = rows.length ∧
      fc.features.all (fun f => f.geometry.isSome) = true ∧
      (∀ row ∈ rows, parsedWkt row = none →
        rowGeometry row = .ok (some (specFallbackPoint row))) := by
  have hrows : ∀ (i : Nat) (rs : List Row), rs.all wktFieldOk = true →
      ∃ fs : List Feature, convertRows i rs = .ok fs ∧ fs.length = rs.length ∧
        fs.all (fun f => f.geometry.isSome) = true := by
    intro i rs
    induction rs generalizing i with
    | nil => intro _; exact ⟨[], rfl, rfl, rfl⟩
    | cons r t ih =>
      intro hall
      simp only [List.all_cons, Bool.and_eq_true] at hall
      obtain ⟨fs, hfs, hlen, hsome⟩ := ih (i + 1) hall.2
      refine ⟨{ id := i
                geometry := some (match parsedWkt r with
                  | some g => g
                  | none => specFallbackPoint r)
                properties := r.filter fun kv => !(geoKeys.contains kv.1) } :: fs,
        ?_, ?_, ?_⟩
      · unfold convertRows rowToFeature
        rw [rowGeometry_eq r hall.1, hfs]
      · simp [hlen]
      · simp only [List.all_cons, Bool.and_eq_true]
        exact ⟨rfl, hsome⟩
  obtain ⟨fs, hfs, hlen, hsome⟩ := hrows 0 rows hok
  refine ⟨{ features := fs }, ?_, hlen, hsome, ?_⟩
  · unfold convertToGeoJSON
    rw [hfs]
  · intro row hrow hparse
    have hr : wktFieldOk row = true := by
      rw [List.all_eq_true] at hok
      exact hok row hrow
    rw [rowGeometry_eq row hr, hparse]

/-- Witness for `convertToGeoJSON_never_drops_rows`: three concrete
rows - a WKT row, a lon/lat row, and an empty row that falls back to
the origin point. -/
theorem convertToGeoJSON_never_drops_rows_witness :
    ([[("geometry_wkt", RVal.str "POINT(3 4)"), ("name", RVal.str "a")],
      [("lon", RVal.num (some 1)), ("lat", RVal.num (some 2))],
      []] : List Row).all wktFieldOk = true ∧
    ∃ fc : FeatureCollection,
      convertToGeoJSON
        [[("geometry_wkt", RVal.str "POINT(3 4)"), ("name", RVal.str "a")],
         [("lon", RVal.num (some 1)), ("lat", RVal.num (some 2))],
         []] = .ok fc ∧
      fc.features.length = 3 ∧
      fc.features.all (fun f => f.geometry.isSome) = true ∧
      (∀ row ∈ ([[("geometry_wkt", RVal.str "POINT(3 4)"), ("name", RVal.str "a")],
         [("lon", RVal.num (some 1)), ("lat", RVal.num (some 2))],
         []] : List Row), parsedWkt row = none →
        rowGeometry row = .ok (some (specFallbackPoint row))) := by
  constructor
  · with_unfolding_all rfl
  · obtain ⟨fc, h1, h2, h3, h4⟩ := convertToGeoJSON_never_drops_rows
      [[("geometry_wkt", RVal.str "POINT(3 4)"), ("name", RVal.str "a")],
       [("lon", RVal.num (some 1)), ("lat", RVal.num (some 2))],
       []] (by with_unfolding_all rfl)
    exact ⟨fc, h1, by rw [h2]; rfl, h3, h4⟩


/-- C3 (the regex path on the spec's own example input): a theorem
evaluating the embedded resolver at the failing input.  The location
patterns have no "of PLACE" alternative; pattern 2 lazily captures the
words before the dataset noun, so the extracted location is "show me",
not anything matching "tallinn", and since "show me" is not a known
city the built SQL has no ST_DWithin predicate.  dataType and radius
do come out as the claim says. -/
theorem handleQuery_tallinn_failing_input :
    handleQueryResolve "Show me buildings within 5km of Tallinn" =
      .execute "buildings" "show me" 5
        "SELECT *, ST_AsText(geometry) as geometry_wkt FROM read_parquet('buildings.geoparquet') LIMIT 1000" ∧
    ("show me" : String) ≠ "tallinn" ∧
    includesStr
      "SELECT *, ST_AsText(geometry) as geometry_wkt FROM read_parquet('buildings.geoparquet') LIMIT 1000".data
      "ST_DWithin" = false := by
  refine ⟨by with_unfolding_all rfl, by decide, by with_unfolding_all rfl⟩

/-- C5 counterexample: a trailing comma is inside the `[\w\s,]` capture
class and `trim()` removes only whitespace, so
"Center map on Tartu," resolves to the place "Tartu,», not "Tartu". -/
theorem centerOn_trailing_comma_counterexample :
    handleQueryResolve "Center map on Tartu," = .centerOn "Tartu," ∧
    ("Tartu," : String) ≠ "Tartu" := by
  refine ⟨by with_unfolding_all rfl, by decide⟩

theorem scanMatch_some_imp {α : Type} (attempt : List Char → Option α) :
    ∀ (s : List Char) (r : α), scanMatch attempt s = some r →
      ∃ t : List Char, attempt t = some r := by
  intro s
  induction s with
  | nil => intro r h; exact ⟨[], by simpa [scanMatch] using h⟩
  | cons c rest ih =>
    intro r h
    cases hat : attempt (c :: rest) with
    | some x => exact ⟨c :: rest, by rw [hat]; simpa [scanMatch, hat] using h⟩
    | none => exact ih r (by simpa [scanMatch, hat] using h)

theorem centerMatchAt_ne_nil {s cap : List Char} (h : centerMatchAt s = some cap) :
    cap ≠ [] := by
  unfold centerMatchAt at h
  have hmem := List.mem_of_mem_head? h
  simp only [List.mem_flatMap, List.mem_filterMap] at hmem
  obtain ⟨r1, -, r2, -, r3, -, r4, -, r5, -, hif⟩ := hmem
  by_cases he : (r5.takeWhile centerClassChar).isEmpty
  · rw [if_pos he] at hif
    cases hif
  · rw [if_neg he] at hif
    cases hif
    simpa [List.isEmpty_iff] using he

theorem centerMatch_ne_nil {s cap : List Char} (h : centerMatch s = some cap) :
    cap ≠ [] := by
  obtain ⟨t, ht⟩ := scanMatch_some_imp centerMatchAt s cap h
  exact centerMatchAt_ne_nil ht

/-- C5 (amended): whenever the center-directive pattern matches
anywhere in the input (in particular whenever it matches at the
start), the resolver takes the CenterOn path before any other
interpretation, with the place being the whitespace-trimmed capture of
`([\w\s,]+)`.  Punctuation outside the class (`.`, `!`, ...) is
excluded from the capture, but commas are part of the class and are
RETAINED: "Center map on Tartu" and "Center map on Tartu." both give
"Tartu", while "Center map on Tartu," gives "Tartu,". -/
theorem centerOn_takes_priority :
    (∀ (s : String) (cap : List Char), centerMatch s.data = some cap →
      handleQueryResolve s = .centerOn (String.mk (trimJs cap))) ∧
    handleQueryResolve "Center map on Tartu" = .centerOn "Tartu" ∧
    handleQueryResolve "Center map on Tartu." = .centerOn "Tartu" ∧
    handleQueryResolve "Center map on Tartu," = .centerOn "Tartu," := by
  refine ⟨?_, by with_unfolding_all rfl, by with_unfolding_all rfl,
    by with_unfolding_all rfl⟩
  intro s cap h
  have hne : cap ≠ [] := centerMatch_ne_nil h
  have hie : cap.isEmpty = false := by
    cases cap with
    | nil => exact absurd rfl hne
    | cons x xs => rfl
  unfold handleQueryResolve
  simp only [h, hie]
  rfl

/-- Witness for `centerOn_takes_priority`: the general conjunct
applied at a concrete matching input. -/
theorem centerOn_takes_priority_witness :
    centerMatch "fly to Narva".data = some "Narva".data ∧
    handleQueryResolve "fly to Narva" = .centerOn (String.mk (trimJs "Narva".data)) := by
  refine ⟨by with_unfolding_all rfl, ?_⟩
  exact centerOn_takes_priority.1 "fly to Narva" "Narva".data
    (by with_unfolding_all rfl)

/-- C1: analyzeQueryWithGPT is total over every service outcome.  (i) In
every failure tier - missing API key or unreachable service, empty
response, unrecoverably malformed JSON (strict parse fails and the
brace-span recovery finds nothing or fails to parse), or parsed JSON
missing a required field - the result is exactly the fixed default
intent (dataType buildings, location Tartu, radius 10, the fixed
buildings-around-Tartu SQL).  (ii) Every throw of the body is absorbed:
whenever the try-block body throws, the caller receives the default
intent, never the exception.  (iii) In the brace-span recovery tier
(strict parse fails, the outermost span parses and has the required
fields) the result is the intent read off the recovered object. -/
theorem analyzeQueryWithGPT_total_fallback :
    (∀ q key o, failureTier key o = true →
      analyzeQueryWithGPT q key o = defaultIntent) ∧
    (∀ q key o e, analyzeBody key o = .error e →
      analyzeQueryWithGPT q key o = defaultIntent) ∧
    (∀ q key content j, ¬ key = "" → ¬ content = "" →
      jsonParse (String.mk (cleanResponse content)) = none →
      (extractBraces (cleanResponse content)).bind
          (fun sub => jsonParse (String.mk sub)) = some j →
      intentFieldsOk j = true →
      analyzeQueryWithGPT q key (.response content) = toIntent j) := by
  refine ⟨?_, ?_, ?_⟩
  · intro q key o h
    by_cases hk : key = ""
    · simp [analyzeQueryWithGPT, analyzeBody, hk]
    · cases o with
      | unreachable m => simp [analyzeQueryWithGPT, analyzeBody, hk]
      | response content =>
        by_cases hc : content = ""
        · simp [analyzeQueryWithGPT, analyzeBody, hk, hc]
        · simp only [analyzeQueryWithGPT, analyzeBody, hk, hc, analyzeContent]
          cases hp : jsonParse (String.mk (cleanResponse content)) with
          | some j =>
            simp only [failureTier, hp, Bool.or_eq_true, decide_eq_true_eq,
              Bool.not_eq_true'] at h
            rcases h with h | h | h
            · exact absurd h hk
            · exact absurd h hc
            · simp [hp, h]
          | none =>
            cases he : extractBraces (cleanResponse content) with
            | none => simp [hp, he, intentFieldsOk, defaultIntentJson,
                Json.getField, jsonTruthy, toIntent, defaultIntent, defaultSQL]
            | some sub =>
              cases hq : jsonParse (String.mk sub) with
              | none => simp [hp, he, hq, intentFieldsOk, defaultIntentJson,
                  Json.getField, jsonTruthy, toIntent, defaultIntent, defaultSQL]
              | some j =>
                simp only [failureTier, hp, he, hq, Bool.or_eq_true,
                  decide_eq_true_eq, Bool.not_eq_true'] at h
                rcases h with h | h | h
                · exact absurd h hk
                · exact absurd h hc
                · simp [hp, he, hq, h]
  · intro q key o e h
    simp [analyzeQueryWithGPT, h]
  · intro q key content j hk hc hp hrec hv
    cases he : extractBraces (cleanResponse content) with
    | none => rw [he] at hrec; exact absurd hrec (by simp [Option.bind])
    | some sub =>
      rw [he] at hrec
      simp only [Option.bind] at hrec
      simp [analyzeQueryWithGPT, analyzeBody, hk, hc, analyzeContent, hp, he,
        hrec, hv]

/-- Witness for `analyzeQueryWithGPT_total_fallback`: the failure-tier
conjunct at an unparseable response, and the recovery-tier conjunct at
a response whose JSON is embedded in prose. -/
theorem analyzeQueryWithGPT_total_fallback_witness :
    analyzeQueryWithGPT "q" "k" (.response "not json at all") = defaultIntent ∧
    analyzeQueryWithGPT "q" "k"
        (.response "ok: \x7b\"dataType\":\"roads\",\"query\":\"SELECT 1\",\"explanation\":\"e\"\x7d") =
      toIntent (Json.obj [("dataType", .str "roads"), ("query", .str "SELECT 1"),
        ("explanation", .str "e")]) :=
  ⟨analyzeQueryWithGPT_total_fallback.1 "q" "k" (.response "not json at all")
      (by with_unfolding_all rfl),
   analyzeQueryWithGPT_total_fallback.2.2 "q" "k"
      "ok: \x7b\"dataType\":\"roads\",\"query\":\"SELECT 1\",\"explanation\":\"e\"\x7d"
      (Json.obj [("dataType", .str "roads"), ("query", .str "SELECT 1"),
        ("explanation", .str "e")])
      (by simp) (by simp) (by with_unfolding_all rfl)
      (by with_unfolding_all rfl) (by with_unfolding_all rfl)⟩

/-! ### Lemmas: the serialized document parses back -/

theorem printStrBody_nil : printStrBody [] = [] := rfl

theorem printStrBody_cons (c : Char) (l : List Char) :
    printStrBody (c :: l) = escChar c ++ printStrBody l := rfl

theorem hexVal_hexDigitChar (n : Nat) (h : n < 16) :
    hexVal (hexDigitChar n) = some n := by
  interval_cases n <;> rfl

theorem strAux_u_step (f : Nat) (acc X : List Char) (hi lo : Nat)
    (h1 : hi < 2) (h2 : lo < 16) :
    parseJsonStrAux (f + 1) acc
      ('\\' :: 'u' :: '0' :: '0' :: hexDigitChar hi :: hexDigitChar lo :: X) =
      parseJsonStrAux f (Char.ofNat (hi * 16 + lo) :: acc) X := by
  interval_cases hi <;> interval_cases lo <;> rfl

theorem parseJsonStrAux_print (l : List Char) : ∀ fuel acc rest,
    (printStrBody l).length < fuel →
    parseJsonStrAux fuel acc (printStrBody l ++ '"' :: rest) =
      some (acc.reverse ++ l, rest) := by
  induction l with
  | nil =>
    intro fuel acc rest hf
    match fuel, hf with
    | f + 1, _ =>
      simp [printStrBody_nil, parseJsonStrAux]
  | cons c l ih =>
    intro fuel acc rest hf
    rw [printStrBody_cons] at hf ⊢
    by_cases h1 : c = '"'
    · subst h1
      rw [show escChar '"' = ['\\', '"'] from rfl] at hf ⊢
      match fuel, hf with
      | f + 1, hf =>
        have hlen : (printStrBody l).length < f := by
          simp at hf; omega
        show parseJsonStrAux (f + 1) acc
          ('\\' :: '"' :: (printStrBody l ++ '"' :: rest)) = _
        rw [show parseJsonStrAux (f + 1) acc
            ('\\' :: '"' :: (printStrBody l ++ '"' :: rest)) =
            parseJsonStrAux f ('"' :: acc) (printStrBody l ++ '"' :: rest) from rfl]
        rw [ih f ('"' :: acc) rest hlen]
        simp
    · by_cases h2 : c = '\\'
      · subst h2
        rw [show escChar '\\' = ['\\', '\\'] from rfl] at hf ⊢
        match fuel, hf with
        | f + 1, hf =>
          have hlen : (printStrBody l).length < f := by
            simp at hf; omega
          rw [show parseJsonStrAux (f + 1) acc
              (['\\', '\\'] ++ printStrBody l ++ '"' :: rest) =
              parseJsonStrAux f ('\\' :: acc) (printStrBody l ++ '"' :: rest) from rfl]
          rw [ih f ('\\' :: acc) rest hlen]
          simp
      · by_cases h3 : c.toNat < 32
        · have hesc : escChar c =
              ['\\', 'u', '0', '0', hexDigitChar (c.toNat / 16),
               hexDigitChar (c.toNat % 16)] := by
            rw [escChar, if_neg h1, if_neg h2, if_pos h3]
          rw [hesc] at hf ⊢
          match fuel, hf with
          | f + 1, hf =>
            have hlen : (printStrBody l).length < f := by
              simp at hf; omega
            show parseJsonStrAux (f + 1) acc
              ('\\' :: 'u' :: '0' :: '0' :: hexDigitChar (c.toNat / 16) ::
                hexDigitChar (c.toNat % 16) :: (printStrBody l ++ '"' :: rest)) = _
            rw [strAux_u_step f acc _ (c.toNat / 16) (c.toNat % 16)
              (by omega) (by omega)]
            have hc : Char.ofNat (c.toNat / 16 * 16 + c.toNat % 16) = c := by
              have h4 : c.toNat / 16 * 16 + c.toNat % 16 = c.toNat := by omega
              rw [h4, Char.ofNat_toNat]
            rw [hc, ih f (c :: acc) rest hlen]
            simp
        · have hesc : escChar c = [c] := by
            rw [escChar, if_neg h1, if_neg h2, if_neg h3]
          rw [hesc] at hf ⊢
          match fuel, hf with
          | f + 1, hf =>
            have hlen : (printStrBody l).length < f := by
              simp at hf; omega
            show parseJsonStrAux (f + 1) acc
              (c :: (printStrBody l ++ '"' :: rest)) = _
            rw [parseJsonStrAux.eq_def]
            simp only [h1, h2, h3, if_false, ite_false, if_neg]
            rw [ih f (c :: acc) rest hlen]
            simp

theorem digitChar_toNat {d : Nat} (h : d < 10) : (digitChar d).toNat = 48 + d := by
  interval_cases d <;> rfl

theorem digitChar_isDigit {d : Nat} (h : d < 10) : (digitChar d).isDigit = true := by
  interval_cases d <;> rfl

theorem digitsToNat_append_one (l : List Char) (c : Char) :
    digitsToNat (l ++ [c]) = digitsToNat l * 10 + (c.toNat - 48) := by
  simp [digitsToNat, List.foldl_append]

theorem digitsToNat_rev_digits : ∀ ds : List Nat, (∀ d ∈ ds, d < 10) →
    digitsToNat (ds.reverse.map digitChar) = Nat.ofDigits 10 ds := by
  intro ds
  induction ds with
  | nil => intro _; rfl
  | cons d ds ih =>
    intro h
    have hd : d < 10 := h d (List.mem_cons_self d ds)
    rw [List.reverse_cons, List.map_append]
    simp only [List.map_cons, List.map_nil]
    rw [digitsToNat_append_one,
      ih (fun x hx => h x (List.mem_cons_of_mem d hx)),
      show Nat.ofDigits 10 (d :: ds) = d + 10 * Nat.ofDigits 10 ds from rfl,
      digitChar_toNat hd]
    omega

theorem digitsToNat_natDigits (n : Nat) : digitsToNat (natDigits n) = n := by
  by_cases h : n = 0
  · subst h; rfl
  · rw [natDigits, if_neg h,
      digitsToNat_rev_digits (Nat.digits 10 n) (fun d hd => Nat.digits_lt_base' hd),
      Nat.ofDigits_digits]

theorem natDigits_all_digits (n : Nat) :
    ∀ c ∈ natDigits n, c.isDigit = true := by
  by_cases h : n = 0
  · subst h; intro c hc; simp [natDigits] at hc; subst hc; rfl
  · rw [natDigits, if_neg h]
    intro c hc
    obtain ⟨d, hd, hdc⟩ := List.mem_map.1 hc
    have : d < 10 := Nat.digits_lt_base' (List.mem_reverse.1 hd)
    rw [← hdc]
    exact digitChar_isDigit this

theorem natDigits_shape (n : Nat) (h : n ≠ 0) :
    ∃ d t, natDigits n = digitChar d :: t ∧ 0 < d ∧ d < 10 := by
  rw [natDigits, if_neg h]
  have hne : Nat.digits 10 n ≠ [] := Nat.digits_ne_nil_iff_ne_zero.mpr h
  have hrev : (Nat.digits 10 n).reverse ≠ [] := by
    simp only [ne_eq, List.reverse_eq_nil_iff]
    exact hne
  obtain ⟨d, t, ht⟩ : ∃ d t, (Nat.digits 10 n).reverse = d :: t := by
    cases hc : (Nat.digits 10 n).reverse with
    | nil => exact absurd hc hrev
    | cons d t => exact ⟨d, t, rfl⟩
  refine ⟨d, t.map digitChar, by rw [ht]; rfl, ?_, ?_⟩
  · have hdl : d = (Nat.digits 10 n).getLast hne := by
      have := List.head?_reverse (Nat.digits 10 n)
      rw [ht] at this
      simp at this
      rw [List.getLast?_eq_getLast _ hne] at this
      exact Option.some_inj.1 this
    rw [hdl]
    exact Nat.pos_of_ne_zero (Nat.getLast_digit_ne_zero 10 h)
  · have : d ∈ (Nat.digits 10 n).reverse := by rw [ht]; exact List.mem_cons_self d t
    exact Nat.digits_lt_base' (List.mem_reverse.1 this)

theorem natDigits_ne_nil (n : Nat) : natDigits n ≠ [] := by
  by_cases h : n = 0
  · subst h; simp [natDigits]
  · obtain ⟨d, t, ht, _, _⟩ := natDigits_shape n h
    rw [ht]; simp

theorem takeWhile_digits (a : List Char) :
    ∀ b : List Char, (∀ c ∈ a, c.isDigit = true) →
      (∀ c, b.head? = some c → c.isDigit = false) →
      (a ++ b).takeWhile Char.isDigit = a ∧ (a ++ b).drop a.length = b := by
  induction a with
  | nil =>
    intro b _ hb
    refine ⟨?_, rfl⟩
    cases b with
    | nil => rfl
    | cons c r => simp [List.takeWhile_cons, hb c rfl]
  | cons x xs ih =>
    intro b ha hb
    have hx : x.isDigit = true := ha x (List.mem_cons_self x xs)
    have := ih b (fun c hc => ha c (List.mem_cons_of_mem x hc)) hb
    refine ⟨?_, by
      rw [List.cons_append, List.length_cons, List.drop_succ_cons]
      exact this.2⟩
    simp [List.takeWhile_cons, hx, this.1]

theorem digitsToNat_nil : digitsToNat [] = 0 := rfl

theorem natDigits_isEmpty (n : Nat) : (natDigits n).isEmpty = false := by
  cases h : natDigits n with
  | nil => exact absurd h (natDigits_ne_nil n)
  | cons a t => rfl

theorem numBreak_head {rest : List Char} (hr : numBreak rest = true) :
    ∀ c, rest.head? = some c → c.isDigit = false := by
  intro c hc
  cases rest with
  | nil => simp at hc
  | cons x t =>
    simp at hc
    subst hc
    simpa [numBreak] using hr

theorem tenExp_dvd {d : Nat} (h : d ∣ 10 ^ d) : d ∣ 10 ^ tenExp d := by
  rw [tenExp]
  cases hf : (List.range (d + 1)).find? (fun k => decide (d ∣ 10 ^ k)) with
  | none => simpa using h
  | some k =>
    have h2 := List.find?_some hf
    simpa using h2

theorem printNum_arith (q : ℚ) (hq : q.den ∣ 10 ^ q.den) :
    ((q.num * ((10 : Int) ^ tenExp q.den / (q.den : Int)) : Int) : ℚ) *
      ((10 : ℚ) ^ tenExp q.den)⁻¹ = q := by
  have hdvd : (q.den : Int) ∣ (10 : Int) ^ tenExp q.den := by
    have h2 := tenExp_dvd hq
    have h3 : ((q.den : Int)) ∣ ((10 ^ tenExp q.den : Nat) : Int) :=
      Int.natCast_dvd_natCast.mpr h2
    push_cast at h3
    exact h3
  have hm : (10 : Int) ^ tenExp q.den / (q.den : Int) * (q.den : Int) =
      (10 : Int) ^ tenExp q.den := Int.ediv_mul_cancel hdvd
  have hden : ((q.den : ℚ)) ≠ 0 := by
    exact_mod_cast q.den_nz
  have h10 : ((10 : ℚ) ^ tenExp q.den) ≠ 0 := by positivity
  have hm2 : (((10 : Int) ^ tenExp q.den / (q.den : Int) : Int) : ℚ) =
      (10 : ℚ) ^ tenExp q.den / (q.den : ℚ) := by
    rw [eq_div_iff hden]
    exact_mod_cast congrArg (fun z : Int => (z : ℚ)) hm
  push_cast [hm2]
  have hnum : (q.num : ℚ) = q * (q.den : ℚ) := (Rat.mul_den_eq_num q).symm
  field_simp
  rw [hnum]
  ring

theorem digitChar_ne_zero {d : Nat} (h1 : 0 < d) (h10 : d < 10) :
    ¬ digitChar d = '0' := by
  interval_cases d <;> decide

theorem digitChar_ne_minus {d : Nat} (h10 : d < 10) :
    ¬ digitChar d = '-' := by
  interval_cases d <;> decide

theorem parseJsonNum_print (q : ℚ) (rest : List Char)
    (hq : printableNum q = true) (hr : numBreak rest = true) :
    parseJsonNum (printNum q ++ rest) = some (q, rest) := by
  have hq10 : q.den ∣ 10 ^ q.den := by simpa [printableNum] using hq
  set k := tenExp q.den with hk
  set a := q.num * ((10 : Int) ^ k / (q.den : Int)) with ha
  have harith : (a : ℚ) * ((10 : ℚ) ^ k)⁻¹ = q := printNum_arith q hq10
  have hpr : printNum q =
      (if a < 0 then ['-'] else []) ++ natDigits a.natAbs ++
        'e' :: '-' :: natDigits k := rfl
  have hEds := takeWhile_digits (natDigits k) rest
    (natDigits_all_digits k) (numBreak_head hr)
  have hne : ∀ c, ('e' :: '-' :: (natDigits k ++ rest)).head? = some c →
      c.isDigit = false := by
    intro c hc
    simp at hc
    subst hc
    rfl
  by_cases hneg : a < 0
  · obtain ⟨d, ds, hsh, hd1, hd10⟩ := natDigits_shape a.natAbs
      (by simp [Int.natAbs_eq_zero]; omega)
    have hTW := takeWhile_digits (natDigits a.natAbs)
      ('e' :: '-' :: (natDigits k ++ rest)) (natDigits_all_digits _) hne
    rw [hsh] at hTW
    simp only [List.cons_append] at hTW
    rw [hpr, if_pos hneg]
    simp only [List.append_assoc, List.cons_append, List.nil_append]
    rw [hsh]
    simp only [List.cons_append]
    simp only [parseJsonNum, List.head?_cons, List.tail_cons, List.cons_append,
      Option.some.injEq, eq_self_iff_true, ite_true, ite_false, Char.reduceEq,
      Bool.or_self, Bool.or_false, Bool.false_or, Bool.or_true, Bool.true_or,
      decide_True, decide_False, decide_eq_true_eq,
      List.head?_nil, List.tail_nil, List.nil_append, List.append_nil,
      digitChar_isDigit hd10, Bool.not_true, Bool.false_eq_true, if_false,
      digitChar_ne_zero hd1 hd10, digitChar_ne_minus hd10,
      hTW.1, hTW.2, hEds.1, hEds.2, natDigits_isEmpty, digitsToNat_nil,
      Prod.mk.injEq, and_true, true_and]
    rw [← hsh, digitsToNat_natDigits, digitsToNat_natDigits]
    have hcast : ((a.natAbs : ℚ)) = -(a : ℚ) := by
      rw [Int.cast_natAbs]
      exact_mod_cast abs_of_neg hneg
    rw [show (-1 : Int) * ((k : Nat) : Int) = -((k : Nat) : Int) by ring,
      zpow_neg, zpow_natCast, hcast]
    norm_num
    exact harith
  · rw [hpr, if_neg hneg]
    simp only [List.append_assoc, List.cons_append, List.nil_append]
    by_cases haz : a.natAbs = 0
    · have hq0 : q = 0 := by
        have ha0 : a = 0 := Int.natAbs_eq_zero.mp haz
        rw [ha0] at harith
        simpa using harith.symm
      rw [show natDigits a.natAbs = ['0'] by rw [haz]; rfl]
      simp only [List.cons_append]
      simp only [parseJsonNum, List.head?_cons, List.tail_cons, List.cons_append,
        Option.some.injEq, eq_self_iff_true, ite_true, ite_false, Char.reduceEq,
      Bool.or_self, Bool.or_false, Bool.false_or, Bool.or_true, Bool.true_or,
      decide_True, decide_False, decide_eq_true_eq,
      List.head?_nil, List.tail_nil, List.nil_append, List.append_nil,
        show (('0' : Char) = '-') = False by simp,
        show (('0' : Char) = '0') = True by simp,
        show ('0' : Char).isDigit = true from rfl, Bool.not_true,
        Bool.false_eq_true, if_false,
        hEds.1, hEds.2, natDigits_isEmpty, digitsToNat_nil,
        Prod.mk.injEq, and_true, true_and]
      rw [show digitsToNat ['0'] = 0 from rfl, digitsToNat_natDigits, hq0]
      norm_num
    · obtain ⟨d, ds, hsh, hd1, hd10⟩ := natDigits_shape a.natAbs haz
      have hTW := takeWhile_digits (natDigits a.natAbs)
        ('e' :: '-' :: (natDigits k ++ rest)) (natDigits_all_digits _) hne
      rw [hsh] at hTW
      simp only [List.cons_append] at hTW
      rw [hsh]
      simp only [List.cons_append]
      simp only [parseJsonNum, List.head?_cons, List.tail_cons, List.cons_append,
        Option.some.injEq, eq_self_iff_true, ite_true, ite_false, Char.reduceEq,
      Bool.or_self, Bool.or_false, Bool.false_or, Bool.or_true, Bool.true_or,
      decide_True, decide_False, decide_eq_true_eq,
      List.head?_nil, List.tail_nil, List.nil_append, List.append_nil,
        digitChar_isDigit hd10, Bool.not_true, Bool.false_eq_true, if_false,
        digitChar_ne_zero hd1 hd10, digitChar_ne_minus hd10,
        hTW.1, hTW.2, hEds.1, hEds.2, natDigits_isEmpty, digitsToNat_nil,
        Prod.mk.injEq, and_true, true_and]
      rw [← hsh, digitsToNat_natDigits, digitsToNat_natDigits]
      have hcast : ((a.natAbs : ℚ)) = (a : ℚ) := by
        rw [Int.cast_natAbs]
        exact_mod_cast abs_of_nonneg (le_of_not_lt hneg)
      rw [show (-1 : Int) * ((k : Nat) : Int) = -((k : Nat) : Int) by ring,
        zpow_neg, zpow_natCast, hcast]
      norm_num
      exact harith

theorem stringMk_data (s : String) : String.mk s.data = s := rfl

theorem printJson_arr (vs : List Json) :
    printJson (.arr vs) = '[' :: (printJson.printItems vs ++ [']']) := rfl

theorem printJson_obj (kvs : List (String × Json)) :
    printJson (.obj kvs) = '\x7b' :: (printJson.printFields kvs ++ ['\x7d']) := rfl

theorem printItems_one (v : Json) : printJson.printItems [v] = printJson v := rfl

theorem printItems_cons (v w : Json) (vs : List Json) :
    printJson.printItems (v :: w :: vs) =
      printJson v ++ ',' :: printJson.printItems (w :: vs) := rfl

theorem printFields_one (k : String) (v : Json) :
    printJson.printFields [(k, v)] = printStr k ++ ':' :: printJson v := rfl

theorem printFields_cons (k : String) (v : Json) (kv : String × Json)
    (kvs : List (String × Json)) :
    printJson.printFields ((k, v) :: kv :: kvs) =
      printStr k ++ ':' :: printJson v ++ ',' :: printJson.printFields (kv :: kvs) := rfl

theorem printableL_cons (v : Json) (vs : List Json) :
    printableJson.printableL (v :: vs) =
      (printableJson v && printableJson.printableL vs) := rfl

theorem printableF_cons (k : String) (v : Json) (kvs : List (String × Json)) :
    printableJson.printableF ((k, v) :: kvs) =
      (printableJson v && printableJson.printableF kvs) := rfl

theorem printNum_head (q : ℚ) : ∃ c t, printNum q = c :: t ∧
    c ∈ ['-', '0', '1', '2', '3', '4', '5', '6', '7', '8', '9'] := by
  set k := tenExp q.den with hk
  set a := q.num * ((10 : Int) ^ k / (q.den : Int)) with ha
  have hpr : printNum q =
      (if a < 0 then ['-'] else []) ++ natDigits a.natAbs ++
        'e' :: '-' :: natDigits k := rfl
  by_cases hneg : a < 0
  · exact ⟨'-', natDigits a.natAbs ++ 'e' :: '-' :: natDigits k,
      by rw [hpr, if_pos hneg]; rfl, by decide⟩
  · by_cases haz : a.natAbs = 0
    · refine ⟨'0', 'e' :: '-' :: natDigits k, ?_, by decide⟩
      rw [hpr, if_neg hneg, List.nil_append,
        show natDigits a.natAbs = ['0'] by rw [haz]; rfl]
      rfl
    · obtain ⟨d, ds, hsh, hd1, hd10⟩ := natDigits_shape a.natAbs haz
      refine ⟨digitChar d, ds ++ 'e' :: '-' :: natDigits k, ?_, ?_⟩
      · rw [hpr, if_neg hneg, List.nil_append, hsh]
        rfl
      · interval_cases d <;> decide

theorem printJson_head (j : Json) : ∃ c t, printJson j = c :: t ∧
    jsonWs c = false ∧ ¬ c = ']' ∧ ¬ c = '\x7d' := by
  suffices h : ∃ c t, printJson j = c :: t ∧
      c ∈ ['n', 't', 'f', '"', '[', '\x7b', '-', '0', '1', '2', '3', '4', '5',
           '6', '7', '8', '9'] by
    obtain ⟨c, t, hct, hmem⟩ := h
    refine ⟨c, t, hct, ?_, ?_, ?_⟩
    all_goals fin_cases hmem <;> decide
  cases j with
  | num q =>
    obtain ⟨c, t, hct, hmem⟩ := printNum_head q
    refine ⟨c, t, hct, ?_⟩
    fin_cases hmem <;> decide
  | bool b => cases b with
    | true => exact ⟨'t', _, rfl, by decide⟩
    | false => exact ⟨'f', _, rfl, by decide⟩
  | null => exact ⟨'n', _, rfl, by decide⟩
  | str s => exact ⟨'"', _, rfl, by decide⟩
  | arr vs => exact ⟨'[', _, rfl, by decide⟩
  | obj kvs => exact ⟨'\x7b', _, rfl, by decide⟩

theorem printItems_head (v : Json) (vs : List Json) : ∃ c t,
    printJson.printItems (v :: vs) = c :: t ∧
      jsonWs c = false ∧ ¬ c = ']' ∧ ¬ c = '\x7d' := by
  obtain ⟨c, t, hct, h1, h2, h3⟩ := printJson_head v
  cases vs with
  | nil => exact ⟨c, t, by rw [printItems_one, hct], h1, h2, h3⟩
  | cons w ws =>
    refine ⟨c, t ++ ',' :: printJson.printItems (w :: ws), ?_, h1, h2, h3⟩
    rw [printItems_cons, hct]
    rfl

theorem printFields_head (k : String) (v : Json) (kvs : List (String × Json)) :
    ∃ Y, printJson.printFields ((k, v) :: kvs) = '"' :: Y := by
  cases kvs with
  | nil =>
    exact ⟨(printStrBody k.data ++ ['"']) ++ ':' :: printJson v,
      by rw [printFields_one]; rfl⟩
  | cons kv kvs2 =>
    exact ⟨(printStrBody k.data ++ ['"']) ++
        ':' :: printJson v ++ ',' :: printJson.printFields (kv :: kvs2),
      by rw [printFields_cons]; rfl⟩

theorem val_str_step (n : Nat) (X : List Char) :
    parseJsonVal (n + 1) ('"' :: X) =
      (match parseJsonStrAux (X.length + 1) [] X with
       | some (cs, r2) => some (Json.str (String.mk cs), r2)
       | none => none) := rfl

theorem val_num_step (n : Nat) (c : Char) (X : List Char)
    (hmem : c ∈ ['-', '0', '1', '2', '3', '4', '5', '6', '7', '8', '9']) :
    parseJsonVal (n + 1) (c :: X) =
      (match parseJsonNum (c :: X) with
       | some (q, r2) => some (Json.num q, r2)
       | none => none) := by
  fin_cases hmem <;> rfl

theorem val_arr_step (n : Nat) (c : Char) (X : List Char)
    (hw : jsonWs c = false) (hb : ¬ c = ']') :
    parseJsonVal (n + 1) ('[' :: c :: X) =
      (match parseJsonItems n (c :: X) with
       | some (vs, r2) => some (Json.arr vs, r2)
       | none => none) := by
  simp only [parseJsonVal, List.dropWhile_cons,
    show jsonWs '[' = false from rfl, hw, Bool.false_eq_true, if_false,
    ite_false, List.head?_cons, Option.some.injEq, hb]

theorem val_obj_step (n : Nat) (c : Char) (X : List Char)
    (hw : jsonWs c = false) (hb : ¬ c = '\x7d') :
    parseJsonVal (n + 1) ('\x7b' :: c :: X) =
      (match parseJsonFields n (c :: X) with
       | some (kvs, r2) => some (Json.obj kvs, r2)
       | none => none) := by
  simp only [parseJsonVal, List.dropWhile_cons,
    show jsonWs '\x7b' = false from rfl, hw, Bool.false_eq_true, if_false,
    ite_false, List.head?_cons, Option.some.injEq, hb]

theorem parse_print_all : ∀ fuel : Nat,
    (∀ (j : Json) (rest : List Char), printableJson j = true →
      numBreak rest = true → (printJson j).length < fuel →
      parseJsonVal fuel (printJson j ++ rest) = some (j, rest)) ∧
    (∀ (v : Json) (vs : List Json) (rest : List Char),
      (printableJson v && printableJson.printableL vs) = true →
      (printJson.printItems (v :: vs)).length + 1 < fuel →
      parseJsonItems fuel (printJson.printItems (v :: vs) ++ ']' :: rest) =
        some (v :: vs, rest)) ∧
    (∀ (k : String) (v : Json) (kvs : List (String × Json)) (rest : List Char),
      (printableJson v && printableJson.printableF kvs) = true →
      (printJson.printFields ((k, v) :: kvs)).length + 1 < fuel →
      parseJsonFields fuel (printJson.printFields ((k, v) :: kvs) ++ '\x7d' :: rest) =
        some ((k, v) :: kvs, rest)) := by
  intro fuel
  induction fuel with
  | zero =>
    refine ⟨fun _ _ _ _ h => absurd h (by omega),
      fun _ _ _ _ h => absurd h (by omega),
      fun _ _ _ _ _ h => absurd h (by omega)⟩
  | succ n ih =>
    obtain ⟨ihVal, ihItems, ihFields⟩ := ih
    refine ⟨?_, ?_, ?_⟩
    · intro j rest hpj hr hlen
      cases j with
      | null => exact rfl
      | bool b => cases b with
        | true => exact rfl
        | false => exact rfl
      | num q =>
        have hnum : printableNum q = true := hpj
        obtain ⟨c, t, hct, hmem⟩ := printNum_head q
        rw [show printJson (.num q) = printNum q from rfl, hct, List.cons_append,
          val_num_step n c _ hmem, ← List.cons_append, ← hct,
          parseJsonNum_print q rest hnum hr]
      | str s =>
        rw [show printJson (.str s) = '"' :: (printStrBody s.data ++ ['"']) from rfl,
          List.cons_append, val_str_step, List.append_assoc,
          show (['"'] : List Char) ++ rest = '"' :: rest from rfl,
          parseJsonStrAux_print s.data _ [] rest
            (by simp only [List.length_append, List.length_cons]; omega)]
        simp [stringMk_data]
      | arr vs =>
        cases vs with
        | nil => exact rfl
        | cons v vs2 =>
          have hp : (printableJson v && printableJson.printableL vs2) = true := by
            rw [show printableJson (.arr (v :: vs2)) =
              printableJson.printableL (v :: vs2) from rfl, printableL_cons] at hpj
            exact hpj
          obtain ⟨c, t, hct, hw, hb, _⟩ := printItems_head v vs2
          rw [printJson_arr] at hlen
          simp only [List.length_cons, List.length_append, List.length_singleton] at hlen
          rw [printJson_arr, List.cons_append, List.append_assoc,
            show ([']'] : List Char) ++ rest = ']' :: rest from rfl, hct,
            List.cons_append, val_arr_step n c _ hw hb, ← List.cons_append, ← hct,
            ihItems v vs2 rest hp (by omega)]
      | obj kvs =>
        cases kvs with
        | nil => exact rfl
        | cons kv kvs2 =>
          obtain ⟨k, v⟩ := kv
          have hp : (printableJson v && printableJson.printableF kvs2) = true := by
            rw [show printableJson (.obj ((k, v) :: kvs2)) =
              printableJson.printableF ((k, v) :: kvs2) from rfl,
              printableF_cons] at hpj
            exact hpj
          obtain ⟨Y, hY⟩ := printFields_head k v kvs2
          rw [printJson_obj] at hlen
          simp only [List.length_cons, List.length_append, List.length_singleton] at hlen
          rw [printJson_obj, List.cons_append, List.append_assoc,
            show (['\x7d'] : List Char) ++ rest = '\x7d' :: rest from rfl, hY,
            List.cons_append, val_obj_step n '"' _ (by decide) (by decide),
            ← List.cons_append, ← hY,
            ihFields k v kvs2 rest hp (by omega)]
    · intro v vs rest hp hlen
      rw [Bool.and_eq_true] at hp
      obtain ⟨hpv, hpl⟩ := hp
      cases vs with
      | nil =>
        rw [printItems_one] at hlen ⊢
        simp only [parseJsonItems]
        rw [ihVal v (']' :: rest) hpv rfl (by omega)]
        simp only [List.dropWhile_cons, show jsonWs ']' = false from rfl,
          Bool.false_eq_true, if_false, ite_false, List.head?_cons,
          Option.some.injEq, Char.reduceEq, List.tail_cons, ite_true]
      | cons w vs2 =>
        rw [printItems_cons] at hlen ⊢
        rw [printableL_cons, Bool.and_eq_true] at hpl
        obtain ⟨hpw, hpl2⟩ := hpl
        simp only [List.length_append, List.length_cons] at hlen
        rw [List.append_assoc, List.cons_append]
        simp only [parseJsonItems]
        rw [ihVal v (',' :: (printJson.printItems (w :: vs2) ++ ']' :: rest)) hpv rfl
          (by omega)]
        simp only [List.dropWhile_cons, show jsonWs ',' = false from rfl,
          Bool.false_eq_true, if_false, ite_false, List.head?_cons,
          Option.some.injEq, Char.reduceEq, List.tail_cons, ite_true]
        rw [ihItems w vs2 rest (by rw [Bool.and_eq_true]; exact ⟨hpw, hpl2⟩)
          (by omega)]
    · intro k v kvs rest hp hlen
      rw [Bool.and_eq_true] at hp
      obtain ⟨hpv, hpf⟩ := hp
      cases kvs with
      | nil =>
        rw [printFields_one] at hlen ⊢
        simp only [show printStr k = '"' :: (printStrBody k.data ++ ['"']) from rfl,
          List.length_cons, List.length_append, List.length_singleton] at hlen
        rw [show printStr k = '"' :: (printStrBody k.data ++ ['"']) from rfl]
        simp only [List.cons_append, List.append_assoc, List.singleton_append,
          List.nil_append]
        simp only [parseJsonFields, List.dropWhile_cons,
          show jsonWs '"' = false from rfl, Bool.false_eq_true, if_false, ite_false]
        rw [parseJsonStrAux_print k.data _ []
          (':' :: (printJson v ++ '\x7d' :: rest)) (by simp only [List.length_append, List.length_cons]; omega)]
        simp only [List.reverse_nil, List.nil_append, List.dropWhile_cons,
          show jsonWs ':' = false from rfl, Bool.false_eq_true, if_false,
          ite_false, List.head?_cons, Option.some.injEq, Char.reduceEq,
          List.tail_cons, ite_true]
        rw [ihVal v ('\x7d' :: rest) hpv rfl (by omega)]
        simp only [List.dropWhile_cons, show jsonWs '\x7d' = false from rfl,
          Bool.false_eq_true, if_false, ite_false, List.head?_cons,
          Option.some.injEq, Char.reduceEq, List.tail_cons, ite_true,
          stringMk_data]
      | cons kv2 kvs2 =>
        obtain ⟨k2, v2⟩ := kv2
        rw [printFields_cons] at hlen ⊢
        rw [printableF_cons, Bool.and_eq_true] at hpf
        obtain ⟨hpv2, hpf2⟩ := hpf
        simp only [show printStr k = '"' :: (printStrBody k.data ++ ['"']) from rfl,
          List.length_cons, List.length_append, List.length_singleton] at hlen
        rw [show printStr k = '"' :: (printStrBody k.data ++ ['"']) from rfl]
        simp only [List.cons_append, List.append_assoc, List.singleton_append,
          List.nil_append]
        simp only [parseJsonFields, List.dropWhile_cons,
          show jsonWs '"' = false from rfl, Bool.false_eq_true, if_false, ite_false]
        rw [parseJsonStrAux_print k.data _ []
          (':' :: (printJson v ++ ',' ::
            (printJson.printFields ((k2, v2) :: kvs2) ++ '\x7d' :: rest)))
          (by simp only [List.length_append, List.length_cons]; omega)]
        simp only [List.reverse_nil, List.nil_append, List.dropWhile_cons,
          show jsonWs ':' = false from rfl, Bool.false_eq_true, if_false,
          ite_false, List.head?_cons, Option.some.injEq, Char.reduceEq,
          List.tail_cons, ite_true]
        rw [ihVal v (',' ::
            (printJson.printFields ((k2, v2) :: kvs2) ++ '\x7d' :: rest)) hpv rfl
          (by omega)]
        simp only [List.dropWhile_cons, show jsonWs ',' = false from rfl,
          Bool.false_eq_true, if_false, ite_false, List.head?_cons,
          Option.some.injEq, Char.reduceEq, List.tail_cons, ite_true,
          stringMk_data]
        rw [ihFields k2 v2 kvs2 rest (by rw [Bool.and_eq_true]; exact ⟨hpv2, hpf2⟩)
          (by omega)]

theorem jsonParse_print (j : Json) (hp : printableJson j = true) :
    jsonParse (String.mk (printJson j)) = some j := by
  have hlen : (String.mk (printJson j)).length = (printJson j).length := rfl
  rw [jsonParse, hlen]
  have h1 : parseJsonVal (2 * (printJson j).length + 2) (printJson j ++ []) =
      some (j, []) :=
    (parse_print_all (2 * (printJson j).length + 2)).1 j [] hp rfl (by omega)
  rw [List.append_nil] at h1
  rw [show (String.mk (printJson j)).data = printJson j from rfl, h1]
  rfl

theorem length_flatMap_sum {α β : Type} (l : List α) (f : α → List β) :
    (l.flatMap f).length = (l.map (fun x => (f x).length)).sum := by
  induction l with
  | nil => rfl
  | cons x t ih => simp [List.flatMap_cons, ih]

theorem find_map_hit (k : String) (v : RVal) :
    ∀ l : List (String × RVal), l.any (fun kv => kv.1 = k) = true →
      (l.map (fun kv => if kv.1 = k then (k, v) else kv)).find?
        (fun kv => kv.1 = k) = some (k, v) := by
  intro l
  induction l with
  | nil => intro h; simp at h
  | cons kv t ih =>
    intro h
    by_cases hkv : kv.1 = k
    · simp only [List.map_cons, if_pos hkv]
      rw [List.find?_cons_of_pos _ (by simp)]
    · simp only [List.map_cons, if_neg hkv]
      rw [List.find?_cons_of_neg _ (by simpa using hkv)]
      apply ih
      simp only [List.any_cons, Bool.or_eq_true, decide_eq_true_eq] at h
      rcases h with h | h
      · exact absurd h hkv
      · exact h

theorem find_map_miss (k k2 : String) (v : RVal) (hne : ¬ k2 = k) :
    ∀ l : List (String × RVal),
      (l.map (fun kv => if kv.1 = k then (k, v) else kv)).find?
        (fun kv => kv.1 = k2) = l.find? (fun kv => kv.1 = k2) := by
  intro l
  induction l with
  | nil => rfl
  | cons kv t ih =>
    by_cases hkv : kv.1 = k
    · simp only [List.map_cons, if_pos hkv]
      rw [List.find?_cons_of_neg _ (by simp; intro hE; exact hne hE.symm),
        List.find?_cons_of_neg _ (by simp [hkv]; intro hE; exact hne hE.symm)]
      exact ih
    · simp only [List.map_cons, if_neg hkv]
      by_cases hk2 : kv.1 = k2
      · rw [List.find?_cons_of_pos _ (by simpa using hk2),
          List.find?_cons_of_pos _ (by simpa using hk2)]
      · rw [List.find?_cons_of_neg _ (by simpa using hk2),
          List.find?_cons_of_neg _ (by simpa using hk2)]
        exact ih

theorem rowGet_insert_same (fs : List (String × RVal)) (k : String) (v : RVal) :
    rowGet (jsSpreadInsert fs k v) k = some v := by
  rw [jsSpreadInsert]
  by_cases hany : fs.any (fun kv => kv.1 = k) = true
  · rw [if_pos hany, rowGet, ← List.map_reverse,
      find_map_hit k v fs.reverse (by simpa [List.any_reverse] using hany)]
    rfl
  · rw [if_neg hany, rowGet, List.reverse_append]
    simp only [List.reverse_cons, List.reverse_nil, List.nil_append,
      List.singleton_append]
    rw [List.find?_cons_of_pos _ (by simp)]
    rfl

theorem rowGet_insert_other (fs : List (String × RVal)) (k : String) (v : RVal)
    (k2 : String) (hne : ¬ k2 = k) :
    rowGet (jsSpreadInsert fs k v) k2 = rowGet fs k2 := by
  rw [jsSpreadInsert]
  by_cases hany : fs.any (fun kv => kv.1 = k) = true
  · rw [if_pos hany, rowGet, ← List.map_reverse,
      find_map_miss k k2 v hne fs.reverse]
    rfl
  · rw [if_neg hany, rowGet, List.reverse_append]
    simp only [List.reverse_cons, List.reverse_nil, List.nil_append,
      List.singleton_append]
    rw [List.find?_cons_of_neg _ (by simp; intro hE; exact hne hE.symm)]
    rfl

theorem stampFeature_geometry (qn qi : String) (f : Feature) :
    (stampFeature qn qi f).geometry = f.geometry := rfl

theorem stampFeature_props (qn qi : String) (f : Feature) :
    rowGet (stampFeature qn qi f).properties "query_name" = some (.str qn) ∧
    rowGet (stampFeature qn qi f).properties "query_id" = some (.str qi) ∧
    ∀ key, ¬ key = "query_name" → ¬ key = "query_id" →
      rowGet (stampFeature qn qi f).properties key = rowGet f.properties key := by
  refine ⟨?_, ?_, ?_⟩
  · rw [show (stampFeature qn qi f).properties =
        jsSpreadInsert (jsSpreadInsert f.properties "query_name" (.str qn))
          "query_id" (.str qi) from rfl,
      rowGet_insert_other _ _ _ _ (by decide)]
    exact rowGet_insert_same _ _ _
  · exact rowGet_insert_same _ _ _
  · intro key h1 h2
    rw [show (stampFeature qn qi f).properties =
        jsSpreadInsert (jsSpreadInsert f.properties "query_name" (.str qn))
          "query_id" (.str qi) from rfl,
      rowGet_insert_other _ _ _ _ h2, rowGet_insert_other _ _ _ _ h1]

theorem exportDocJson_features (queries : List QueryResult) :
    (exportDocJson queries).getField "features" =
      some (.arr ((exportAsGeoJSON queries).features.map featureToJson)) := by
  with_unfolding_all rfl

theorem featureToJson_geomType (f : Feature) :
    ((featureToJson f).getField "geometry").bind (fun gj => gj.getField "type") =
      f.geometry.map (fun g => Json.str g.typeName) := by
  obtain ⟨i, geom, props⟩ := f
  cases geom with
  | none => with_unfolding_all rfl
  | some g => cases g <;> with_unfolding_all rfl

theorem export_featureCount (queries : List QueryResult) :
    ((exportAsGeoJSON queries).features.map featureToJson).length =
      (queries.map (fun q => q.data.features.length)).sum := by
  rw [List.length_map,
    show (exportAsGeoJSON queries).features =
      queries.flatMap (fun q => q.data.features.map (stampFeature q.name q.id))
      from rfl,
    length_flatMap_sum]
  exact congrArg List.sum (List.map_eq_map_iff.mpr (fun q _ => List.length_map _ _))

theorem export_geomTypes (queries : List QueryResult) :
    ((exportAsGeoJSON queries).features.map featureToJson).map
        (fun fj => (fj.getField "geometry").bind (fun gj => gj.getField "type")) =
      queries.flatMap (fun q => q.data.features.map
        (fun f => f.geometry.map (fun g => Json.str g.typeName))) := by
  rw [show (exportAsGeoJSON queries).features =
      queries.flatMap (fun q => q.data.features.map (stampFeature q.name q.id))
      from rfl,
    List.map_flatMap, List.map_flatMap]
  apply congrArg (fun F => queries.flatMap F)
  funext q
  rw [List.map_map, List.map_map]
  apply List.map_eq_map_iff.mpr
  intro f _
  show ((featureToJson (stampFeature q.name q.id f)).getField "geometry").bind
      (fun gj => gj.getField "type") = f.geometry.map (fun g => Json.str g.typeName)
  rw [featureToJson_geomType, stampFeature_geometry]

/-- A concrete two-layer history instantiating the export round-trip. -/
def exportSampleQueries : List QueryResult :=
  [{ id := "q1", name := "Buildings", timestamp := 0, visible := true
     data := { features := [
       { id := 0, geometry := some (.point [.num (some (3 / 2)), .num none])
         properties := [("height", .num (some 12)), ("name", .str "a")] }] } },
   { id := "q2", name := "Roads", timestamp := 1, visible := false
     data := { features := [
       { id := 0, geometry := some (.lineString [[.num (some 1), .num (some 2)],
           [.num (some 3), .num (some 4)]])
         properties := [] }] } }]

/-- C8: exporting the selected layers as GeoJSON and re-parsing the
produced document.  The serialized `combinedGeoJSON` (the text of
`JSON.stringify(combinedGeoJSON, null, 2)`, modelled by `printJson`,
which differs from it only in inter-token whitespace and numeric
notation, both invisible to `JSON.parse`) parses back to exactly the
merged document; the document's `features` array has the sum of the
selected layers' feature counts as its length and carries the source
features' geometry `type` tags in order; each merged feature's
properties gain `query_name` and `query_id` bound to its source
layer's name and id, while its geometry and every other property key
read back unchanged from the source feature - the stamping happens on
the merged copy produced by the pure flatMap, so the original
per-layer data is untouched. -/
theorem exportAsGeoJSON_roundtrip (queries : List QueryResult)
    (hp : printableJson (exportDocJson queries) = true) :
    jsonParse (String.mk (printJson (exportDocJson queries))) =
        some (exportDocJson queries) ∧
    (∃ fjs : List Json,
      (exportDocJson queries).getField "features" = some (.arr fjs) ∧
      fjs.length = (queries.map (fun q => q.data.features.length)).sum ∧
      fjs.map (fun fj => (fj.getField "geometry").bind
          (fun gj => gj.getField "type")) =
        queries.flatMap (fun q => q.data.features.map
          (fun f => f.geometry.map (fun g => Json.str g.typeName)))) ∧
    (∀ q ∈ queries, ∀ f ∈ q.data.features,
      (stampFeature q.name q.id f).geometry = f.geometry ∧
      rowGet (stampFeature q.name q.id f).properties "query_name" =
        some (.str q.name) ∧
      rowGet (stampFeature q.name q.id f).properties "query_id" =
        some (.str q.id) ∧
      ∀ key, ¬ key = "query_name" → ¬ key = "query_id" →
        rowGet (stampFeature q.name q.id f).properties key =
          rowGet f.properties key) := by
  refine ⟨jsonParse_print _ hp, ⟨_, exportDocJson_features queries,
    export_featureCount queries, export_geomTypes queries⟩, ?_⟩
  intro q _ f _
  exact ⟨stampFeature_geometry q.name q.id f,
    (stampFeature_props q.name q.id f).1,
    (stampFeature_props q.name q.id f).2.1,
    (stampFeature_props q.name q.id f).2.2⟩

/-- Witness for `exportAsGeoJSON_roundtrip`: the printability
hypothesis evaluated on a concrete two-layer history, and the
round-trip equality obtained by applying the theorem there. -/
theorem exportAsGeoJSON_roundtrip_witness :
    printableJson (exportDocJson exportSampleQueries) = true ∧
    jsonParse (String.mk (printJson (exportDocJson exportSampleQueries))) =
      some (exportDocJson exportSampleQueries) :=
  ⟨by with_unfolding_all rfl,
   (exportAsGeoJSON_roundtrip exportSampleQueries (by with_unfolding_all rfl)).1⟩

end DuckGeoGpt
